import Mathlib

/-!
Verification of the task-consolidation pipeline of the task-master
repository: a shallow embedding of the priority rule engine
(escalate-priority.js), the hash/grouping utilities (hash-task.js), the
merge engine (merge-tasks.js), the document classifier
(classify-document.js) and the hierarchy sort
(process-document-hierarchy.js), together with proofs and refutations of
the specification claims about them.

JavaScript dynamic values are embedded explicitly: optional string fields
are Option String (with undefined and the empty string both falsy), fields
that the merge engine may turn into arrays are a three-way sum
(absent / scalar / array), thrown exceptions are Except values, and the
external collaborators (crypto hash, LLM calls, regex engine) are function
parameters, so every theorem quantifies over their behaviour.
-/

namespace TaskMaster

/-- Value of a JS task field that may be absent, a string, or an array of
strings (the merge engine stores deduplicated unions as arrays). -/
inductive StrVal where
  | none
  | scalar (s : String)
  | array (l : List String)
deriving DecidableEq, Repr

/-- Truthiness of a StrVal field: undefined and the empty string are falsy;
every array, even an empty one, is truthy. -/
def StrVal.truthy : StrVal → Bool
  | .none => false
  | .scalar s => s ≠ ""
  | .array _ => true

/-- The JS pattern (v or two quotes) followed by a string method such as
trim or toLowerCase: absent yields the empty string, a scalar yields the
string itself, and an array raises a TypeError because arrays have no
string methods. -/
def StrVal.asString : StrVal → Except String String
  | .none => .ok ""
  | .scalar s => .ok s
  | .array _ => .error "TypeError: value is not a string"

/-- Strict equality v === s for a StrVal against a string literal: an array
value is never strictly equal to a string. -/
def svIs (v : StrVal) (s : String) : Bool :=
  match v with
  | .scalar x => x = s
  | _ => false

/-- JS default idiom (v or d) on an optional string: undefined and the
empty string are falsy and give the default. -/
def jsOr (v : Option String) (d : String) : String :=
  match v with
  | some s => if s = "" then d else s
  | none => d

/-- Truthiness of an optional string field. -/
def strTruthy (v : Option String) : Bool := v.getD "" ≠ ""

/-- List-level prefix test (structural, kernel-computable). -/
def startsWithL : List Char → List Char → Bool
  | _, [] => true
  | [], _ :: _ => false
  | a :: as, b :: bs => a = b && startsWithL as bs

/-- List-level substring test: some suffix of l starts with pat. -/
def containsL : List Char → List Char → Bool
  | [], pat => pat.isEmpty
  | a :: as, pat => startsWithL (a :: as) pat || containsL as pat

/-- JS String.prototype.includes(pat): contiguous occurrence of pat in s.
Modelled over the character list so that it is structurally recursive and
evaluates inside the kernel (the JS runtime primitive is opaque anyway). -/
def containsStr (s pat : String) : Bool := containsL s.data pat.data

/-- JS String.prototype.trim (ASCII whitespace suffices for the embedded
literals), kernel-computable. -/
def jsTrim (s : String) : String :=
  String.mk (((s.data.dropWhile Char.isWhitespace).reverse.dropWhile
    Char.isWhitespace).reverse)

/-- ASCII lowercasing of one character, as JS toLowerCase acts on the
ASCII range used throughout the embedded code. -/
def charLower (c : Char) : Char :=
  if 65 ≤ c.toNat && c.toNat ≤ 90 then Char.ofNat (c.toNat + 32) else c

/-- JS String.prototype.toLowerCase, kernel-computable. -/
def jsToLower (s : String) : String := String.mk (s.data.map charLower)

/-- Test whether any of the keyword literals of a regex alternation occurs
in the (already lowercased) text. -/
def matchesAny (s : String) (kws : List String) : Bool :=
  kws.any (fun k => containsStr s k)

/-- Insertion into a JS Set rendered as a list: Sets preserve first
insertion order and ignore re-insertions. -/
def insertUniq [DecidableEq α] (acc : List α) (x : α) : List α :=
  if x ∈ acc then acc else acc ++ [x]

/-- JS Array.prototype.join(sep). -/
def joinWith (sep : String) : List String → String
  | [] => ""
  | [a] => a
  | a :: rest => a ++ sep ++ joinWith sep rest

/-- Substring relation: a occurs contiguously in s. -/
def IsSubstr (a s : String) : Prop := ∃ p q, s = p ++ a ++ q

/-- Task record; all fields the embedded modules read or write.
Optional free-text fields are Option String; fields the merge engine

unions into arrays are StrVal; subtask payloads are opaque and
represented by identifiers. -/
structure Task where
  id : Nat
  title : Option String := Option.none
  description : Option String := Option.none
  details : Option String := Option.none
  testStrategy : Option String := Option.none
  performanceGoal : Option String := Option.none
  reliabilityTarget : Option String := Option.none
  priority : Option String := Option.none
  status : Option String := Option.none
  dependencies : List Nat := []
  subtasks : List Nat := []
  sourceDocumentId : StrVal := StrVal.none
  sourceDocumentType : StrVal := StrVal.none
  screen : StrVal := StrVal.none
  component : StrVal := StrVal.none
  epicId : StrVal := StrVal.none
  module : StrVal := StrVal.none
  layer : StrVal := StrVal.none
  viewport : StrVal := StrVal.none
  infraZone : StrVal := StrVal.none
  designToken : Option String := Option.none
  estimationNote : Option String := Option.none
  escalationReason : Option String := Option.none
  mergedFrom : List Nat := []
deriving DecidableEq, Repr

/-! ## Priority rule engine (escalate-priority.js) -/

/-- PRIORITY_ORDER lookup with the or-default-medium idiom used at every
call site: low 1, medium 2, high 3, anything else 2. -/
def priorityOrderOf (p : String) : Nat :=
  if p = "low" then 1 else if p = "medium" then 2
  else if p = "high" then 3 else 2

/-- PRIORITY_LEVELS array. -/
def priorityLevels : List String := ["low", "medium", "high"]

/-- PRIORITY_LEVELS[level - 1]; out-of-range indexing yields the JS
undefined sentinel (never reached: levels stay within 1..3). -/
def priorityName (level : Nat) : String :=
  priorityLevels.getD (level - 1) "undefined"

/-- BASE_PRIORITY_BY_DOCUMENT_TYPE table. -/
def basePriorityByDocumentType : List (String × String) :=
  [("PRD", "high"), ("PRODUCT_REQUIREMENTS", "high"), ("UX_SPEC", "medium"),
   ("DESIGN_SPEC", "medium"), ("UI_SPEC", "medium"), ("SDD", "low"),
   ("SOFTWARE_DESIGN", "low"), ("TECH_SPEC", "low"), ("ARCHITECTURE", "low"),
   ("INFRA_SPEC", "low"), ("DESIGN_SYSTEM", "medium"), ("OTHER", "medium"),
   ("UNKNOWN", "medium")]

/-- Keyed lookup in a string table. -/
def lookupStr (tbl : List (String × String)) (k : String) : Option String :=
  (tbl.find? (fun e => e.1 = k)).map (·.2)

/-- Object-key coercion of the value task.sourceDocumentType with the
or-UNKNOWN default: absent and empty become UNKNOWN, a scalar is itself,
and an array stringifies as its comma-joined elements. -/
def docTypeKey : StrVal → String
  | .none => "UNKNOWN"
  | .scalar s => if s = "" then "UNKNOWN" else s
  | .array l => joinWith "," l

/-- Strict comparison sourceDocumentType === s after the or-UNKNOWN
default; an array value never strictly equals a string. -/
def docTypeIs (v : StrVal) (s : String) : Bool :=
  match v with
  | .none => "UNKNOWN" = s
  | .scalar x => (if x = "" then "UNKNOWN" else x) = s
  | .array _ => false

/-- Security and authentication keyword alternation of rule 5. -/
def securityKeywords : List String :=
  ["security", "auth", "encryption", "token", "login", "signin",
   "authentication", "authorization"]

/-- Refactor and documentation keyword alternation of demotion rule 3. -/
def refactorKeywords : List String :=
  ["refactor", "documentation", "doc", "readme", "comment"]

/-- Lowercased concatenation of title and description used by the keyword
rules. -/
def taskText (t : Task) : String :=
  jsToLower ((jsOr t.title "") ++ " " ++ (jsOr t.description ""))

/-- Rule-4 condition: epicId truthy, trimmed non-empty, and title contains
the word epic. Calling trim() on an array-valued epicId raises a
TypeError; the check is hoisted before the rule chain, which is
observationally equivalent because a thrown TypeError discards the whole
partial result. -/
def epicRuleCond (t : Task) : Except String Bool :=
  match t.epicId with
  | .none => .ok false
  | .scalar s =>
      if s = "" then .ok false
      else .ok ((jsTrim s).length > 0 &&
        (strTruthy t.title && containsStr (jsToLower (jsOr t.title "")) "epic"))
  | .array _ => .error "TypeError: epicId.trim is not a function"

/-- Result of one escalation computation. -/
structure EscalationResult where
  priority : String
  escalationReason : String
deriving DecidableEq, Repr

/-- Escalation rule 1: substantial test strategy. -/
def escTestStrategy (t : Task) : Bool :=
  strTruthy t.testStrategy && (jsTrim (jsOr t.testStrategy "")).length > 20

/-- Escalation rule 2a: performance goal present. -/
def escPerformanceGoal (t : Task) : Bool :=
  strTruthy t.performanceGoal && (jsTrim (jsOr t.performanceGoal "")).length > 0

/-- Escalation rule 2b: reliability target present. -/
def escReliabilityTarget (t : Task) : Bool :=
  strTruthy t.reliabilityTarget && (jsTrim (jsOr t.reliabilityTarget "")).length > 0

/-- Escalation rule 3: UX spec and presentation layer. -/
def escUxPresentation (t : Task) : Bool :=
  docTypeIs t.sourceDocumentType "UX_SPEC" && svIs t.layer "presentation"

/-- Escalation rule 5: security or authentication keywords in the task
text, guarded by title-or-description truthiness. -/
def escSecurity (t : Task) : Bool :=
  (strTruthy t.title || strTruthy t.description) &&
    matchesAny (taskText t) securityKeywords

/-- Escalation rule 6: infrastructure layer with a performance goal
(truthiness only, no trim here in the source). -/
def escInfraPerf (t : Task) : Bool :=
  svIs t.layer "infra" && strTruthy t.performanceGoal

/-- Demotion rule 1: TECH_SPEC or SDD without performance goals and no
escalation fired (the level equals the base level). -/
def demTechNoEscalation (t : Task) (level base : Nat) : Bool :=
  (docTypeIs t.sourceDocumentType "TECH_SPEC" || docTypeIs t.sourceDocumentType "SDD") &&
    (!strTruthy t.performanceGoal || (jsTrim (jsOr t.performanceGoal "")).length = 0) &&
    level = base

/-- Demotion rule 2: description present and trimmed length under 20. -/
def demShortDescription (t : Task) : Bool :=
  strTruthy t.description && (jsTrim (jsOr t.description "")).length < 20

/-- Demotion rule 3: refactor or documentation keywords and no
dependencies, guarded by title-or-description truthiness. -/
def demRefactor (t : Task) : Bool :=
  (strTruthy t.title || strTruthy t.description) &&
    matchesAny (taskText t) refactorKeywords && t.dependencies.length = 0

/-- Core of escalateTaskPriority: the ordered rule chain over the priority
level integer, with the (pure, already checked) rule-4 condition passed
in. Mirrors the source order: base lookup, escalations 1-6, then the
three demotion rules, then conversion back to a priority string and the
semicolon-joined reason list. -/
def escalateCore (t : Task) (epicFires : Bool) : EscalationResult :=
  let sdt := t.sourceDocumentType
  let basePriority := (lookupStr basePriorityByDocumentType (docTypeKey sdt)).getD "medium"
  let l0 := priorityOrderOf basePriority
  let r0 := ["Base priority '" ++ basePriority ++ "' from document type '" ++ docTypeKey sdt ++ "'"]
  let l1 := if escTestStrategy t then min (l0 + 1) 3 else l0
  let r1 := r0 ++ (if escTestStrategy t then ["testStrategy present - indicates testable/production item"] else [])
  let l2 := if escPerformanceGoal t then min (l1 + 1) 3 else l1
  let r2 := r1 ++ (if escPerformanceGoal t then ["performanceGoal present - critical or SLO task"] else [])
  let l3 := if escReliabilityTarget t then min (l2 + 1) 3 else l2
  let r3 := r2 ++ (if escReliabilityTarget t then ["reliabilityTarget present - critical or SLO task"] else [])
  let l4 := if escUxPresentation t then max l3 (priorityOrderOf "medium") else l3
  let r4 := r3 ++ (if escUxPresentation t then ["UX_SPEC + presentation layer - user-facing UI task"] else [])
  let l5 := if epicFires then priorityOrderOf "high" else l4
  let r5 := r4 ++ (if epicFires then ["Epic-level task from PRD - core feature"] else [])
  let l6 := if escSecurity t then min (l5 + 1) 3 else l5
  let r6 := r5 ++ (if escSecurity t then ["Security/authentication task - critical for system safety"] else [])
  let l7 := if escInfraPerf t then max l6 (priorityOrderOf "medium") else l6
  let r7 := r6 ++ (if escInfraPerf t then ["Infrastructure task with performance requirements"] else [])
  let l8 := if demTechNoEscalation t l7 l0 then min l7 (priorityOrderOf "low") else l7
  let r8 := r7 ++ (if demTechNoEscalation t l7 l0 then ["Tech/SDD task without performance goals - demoted to low"] else [])
  let l9 := if demShortDescription t then priorityOrderOf "low" else l8
  let r9 := r8 ++ (if demShortDescription t then ["Very short description - possibly incomplete task"] else [])
  let l10 := if demRefactor t then priorityOrderOf "low" else l9
  let r10 := r9 ++ (if demRefactor t then ["Refactor/documentation task without dependencies - maintenance level"] else [])
  { priority := priorityName l10, escalationReason := joinWith "; " r10 }

/-- escalateTaskPriority: the rule chain, raising the TypeError that an
array-valued epicId provokes inside rule 4. The invalid-input guard of
the source (a non-object task) has no counterpart because every Task
value is an object. The context argument of the source is ignored by
every rule and is omitted. -/
def escalateTaskPriority (t : Task) : Except String EscalationResult :=
  match epicRuleCond t with
  | .error e => .error e
  | .ok fires => .ok (escalateCore t fires)

/-- getMaxPriority. -/
def getMaxPriority (a b : String) : String :=
  priorityName (max (priorityOrderOf a) (priorityOrderOf b))

/-- isPriorityHigher. -/
def isPriorityHigher (a b : String) : Bool :=
  priorityOrderOf a > priorityOrderOf b

/-- escalateAfterMerge: apply the rule result only when it is strictly
higher than the current priority. -/
def escalateAfterMerge (t : Task) : Except String Task :=
  match escalateTaskPriority t with
  | .error e => .error e
  | .ok res =>
      if isPriorityHigher res.priority (jsOr t.priority "medium") then
        .ok { t with priority := some res.priority,
                     escalationReason := some res.escalationReason }
      else .ok t

/-- Priority level of a task under the or-medium default. -/
def taskPriorityLevel (t : Task) : Nat := priorityOrderOf (jsOr t.priority "medium")

/-! ## Similarity scorer (merge-tasks.js, calculateSemanticSimilarity) -/

/-- Token set of a task: the lowercased title-space-description is split
on whitespace, tokens of length at most 2 are discarded, and the rest
form a JS Set. Only set cardinalities reach the similarity value, so the
set is a Finset; splitOnP yields empty pieces for consecutive separators
exactly where the JS single-step split does, and the length filter
removes them. -/
def taskTokens (t : Task) : Finset String :=
  ((((jsToLower ((jsOr t.title "") ++ " " ++ (jsOr t.description ""))).data.splitOnP
      Char.isWhitespace).map String.mk).filter (fun w => w.length > 2)).toFinset

/-- calculateSemanticSimilarity: 1 for two empty token sets, 0 when
exactly one is empty, otherwise Jaccard overlap of the token sets. -/
def calculateSemanticSimilarity (a b : Task) : ℚ :=
  let ta := taskTokens a
  let tb := taskTokens b
  if ta.card = 0 ∧ tb.card = 0 then 1
  else if ta.card = 0 ∨ tb.card = 0 then 0
  else ((ta ∩ tb).card : ℚ) / ((ta ∪ tb).card : ℚ)

/-! ## Hash and grouping utilities (hash-task.js) -/

/-- Trim of a character list on both ends (JS trim at the list level). -/
def trimL (l : List Char) : List Char :=
  ((l.dropWhile Char.isWhitespace).reverse.dropWhile Char.isWhitespace).reverse

/-- Leading verbs stripped by normalizeTitle, in the alternation order of
the source regex. -/
def titleVerbs : List String :=
  ["implement", "create", "add", "build", "setup", "configure"]

/-- Trailing nouns stripped by normalizeTitle. -/
def titleNouns : List String := ["implementation", "setup", "configuration"]

/-- Strip one leading verb followed by its (maximal, at least one) run of
whitespace, as the anchored regex replace does; no verb matching means no
change. -/
def stripLeadVerb (l : List Char) : List Char :=
  match titleVerbs.findSome? (fun v =>
      if startsWithL l v.data then
        match l.drop v.data.length with
        | c :: rest =>
            if c.isWhitespace then some (rest.dropWhile Char.isWhitespace)
            else Option.none
        | [] => Option.none
      else Option.none) with
  | some r => r
  | _ => l

/-- Strip one trailing noun preceded by its (maximal, at least one) run of
whitespace, as the end-anchored regex replace does. -/
def stripTrailNoun (l : List Char) : List Char :=
  let r := l.reverse
  match titleNouns.findSome? (fun n =>
      if startsWithL r n.data.reverse then
        match r.drop n.data.length with
        | c :: rest =>
            if c.isWhitespace then some (rest.dropWhile Char.isWhitespace)
            else Option.none
        | [] => Option.none
      else Option.none) with
  | some rest => rest.reverse
  | _ => l

/-- Replacement of every character outside word characters (letters,
digits, underscore) and whitespace by a space. -/
def wordOrSpace (c : Char) : Char :=
  if c.isAlphanum || c = '_' || c.isWhitespace then c else ' '

/-- Collapse whitespace runs to single spaces (structural, with a
previous-was-whitespace flag). -/
def collapseWsAux : Bool → List Char → List Char
  | _, [] => []
  | prevWs, c :: cs =>
      if c.isWhitespace then
        (if prevWs then [] else [' ']) ++ collapseWsAux true cs
      else c :: collapseWsAux false cs

/-- Collapse whitespace runs to single spaces. -/
def collapseWs (l : List Char) : List Char := collapseWsAux false l

/-- normalizeTitle: lowercase, trim, strip one leading verb and one
trailing noun, turn the remaining punctuation into spaces, collapse
whitespace and trim; a missing title normalizes to the empty string. -/
def normalizeTitle (title : Option String) : String :=
  match title with
  | some s =>
      String.mk (trimL (collapseWs ((stripTrailNoun (stripLeadVerb
        (trimL (jsToLower s).data))).map wordOrSpace)))
  | _ => ""

/-- createGroupingKey: normalized title joined with the lowercased,
trimmed screen, component and epicId; an array-valued field raises the
TypeError of calling a string method on an array. -/
def createGroupingKey (t : Task) : Except String String := do
  let scr ← t.screen.asString
  let comp ← t.component.asString
  let epic ← t.epicId.asString
  .ok (normalizeTitle t.title ++ "|" ++ jsTrim (jsToLower scr) ++ "|" ++
    jsTrim (jsToLower comp) ++ "|" ++ jsTrim (jsToLower epic))

/-- Sorted-key tuple string fed to the SHA256 hash by generateTaskHash;
the alphabetically sorted key order is component, description, screen,
sourceDocumentType, title, and each value is trimmed then lowercased.
Array-valued fields raise a TypeError. -/
def taskHashString (t : Task) : Except String String := do
  let scr ← t.screen.asString
  let comp ← t.component.asString
  let sdt ← t.sourceDocumentType.asString
  .ok ("component:" ++ jsToLower (jsTrim comp) ++
    "|description:" ++ jsToLower (jsTrim (jsOr t.description "")) ++
    "|screen:" ++ jsToLower (jsTrim scr) ++
    "|sourceDocumentType:" ++ jsToLower (jsTrim sdt) ++
    "|title:" ++ jsToLower (jsTrim (jsOr t.title "")))

/-- generateTaskHash with the crypto SHA256 primitive abstracted as a
function parameter: every theorem quantifies over it. -/
def generateTaskHash (sha : String → String) (t : Task) : Except String String :=
  (taskHashString t).map sha

/-! ## Merge engine (merge-tasks.js) -/

/-- Options of the merge engine. -/
structure MergeOptions where
  similarityThreshold : ℚ := 85 / 100
  useLLM : Bool := false
  escalate : Bool := false
deriving Repr

/-- One JS Set insertion step over a field value: a falsy value (absent
or empty string) contributes nothing, a scalar contributes itself, an
array contributes each of its elements. -/
def collectStep (acc : List String) (v : StrVal) : List String :=
  match v with
  | StrVal.none => acc
  | StrVal.scalar s => if s = "" then acc else insertUniq acc s
  | StrVal.array l => l.foldl insertUniq acc

/-- Fold of JS Set insertions over a list of field values. -/
def collectVals (vs : List StrVal) : List String := vs.foldl collectStep []

/-- Predicate: value v would put the string s into the collected set. -/
def svContributes (s : String) : StrVal → Prop
  | StrVal.none => False
  | StrVal.scalar x => x ≠ "" ∧ x = s
  | StrVal.array l => s ∈ l

/-- Dependency union across a task list, in JS Set insertion order. -/
def depsUnion (ts : List Task) : List Nat :=
  ts.foldl (fun acc t => t.dependencies.foldl insertUniq acc) []

/-- Metadata-field union: keep the current (primary) value when the union
is empty, collapse a singleton union to a scalar, store a larger union as
an array. -/
def mergeMetaField (vals : List StrVal) (current : StrVal) : StrVal :=
  match collectVals vals with
  | [] => current
  | [v] => StrVal.scalar v
  | vs => StrVal.array vs

/-- Stable ascending sort by id (the JS comparator a.id - b.id under the
stable Array.prototype.sort). -/
def sortById (ts : List Task) : List Task :=
  List.insertionSort (fun a b => a.id ≤ b.id) ts

/-- JS template interpolation of a possibly-undefined value. -/
def jsShowOpt : Option String → String
  | some s => s
  | _ => "undefined"

/-- Pure consolidation of mergeTasks on the already sorted group (primary
first): mergedFrom, source-document unions (always arrays), maximum
priority with the upgrade note, metadata unions, dependency union,
subtask concatenation and description join. -/
def mergeConsolidate (primary : Task) (others : List Task) : Task :=
  let sorted := primary :: others
  let m1 : Task := { primary with mergedFrom := others.map (·.id) }
  let m2 : Task := { m1 with
    sourceDocumentId := StrVal.array (collectVals (sorted.map (·.sourceDocumentId))),
    sourceDocumentType := StrVal.array (collectVals (sorted.map (·.sourceDocumentType))) }
  let pc := others.foldl (fun (p : String × Bool) t =>
      let tp := jsOr t.priority "medium"
      let mx := getMaxPriority p.1 tp
      if mx ≠ p.1 then (mx, true) else p)
    (jsOr primary.priority "medium", false)
  let m3 : Task := { m2 with priority := some pc.1 }
  let m4 : Task :=
    if pc.2 then
      let note := "Priority upgraded to '" ++ pc.1 ++ "' due to task merge."
      { m3 with estimationNote := some (if strTruthy m3.estimationNote then
          jsOr m3.estimationNote "" ++ " " ++ note else note) }
    else m3
  let m5 : Task := { m4 with
    screen := mergeMetaField (sorted.map (·.screen)) m4.screen,
    component := mergeMetaField (sorted.map (·.component)) m4.component,
    epicId := mergeMetaField (sorted.map (·.epicId)) m4.epicId,
    module := mergeMetaField (sorted.map (·.module)) m4.module,
    layer := mergeMetaField (sorted.map (·.layer)) m4.layer,
    viewport := mergeMetaField (sorted.map (·.viewport)) m4.viewport,
    infraZone := mergeMetaField (sorted.map (·.infraZone)) m4.infraZone }
  let m6 : Task := { m5 with dependencies := depsUnion sorted }
  let subs := sorted.foldl (fun acc t => acc ++ t.subtasks) []
  let m7 : Task := if subs.length > 0 then { m6 with subtasks := subs } else m6
  let descs := ((sorted.map (·.description)).filterMap (fun od =>
      match od with
      | some d => if d ≠ "" && jsTrim d ≠ "" then some d else Option.none
      | _ => Option.none)).foldl insertUniq []
  if descs.length > 1 then { m7 with description := some (joinWith " | " descs) }
  else m7

/-- Body of mergeTasks on the already sorted group: consolidation then the
optional escalation step with its note. -/
def mergeTasksCore (primary : Task) (others : List Task) (opts : MergeOptions) :
    Except String Task :=
  let m8 := mergeConsolidate primary others
  if opts.escalate then
    match escalateAfterMerge m8 with
    | .error e => .error e
    | .ok et =>
        if et.priority ≠ m8.priority then
          let note := "Priority escalated to '" ++ jsShowOpt et.priority ++
            "' after merge (" ++ jsShowOpt et.escalationReason ++ ")"
          .ok { et with estimationNote := some (if strTruthy et.estimationNote then
              jsOr et.estimationNote "" ++ "; " ++ note else note) }
        else .ok et
  else .ok m8

/-- mergeTasks: reject groups smaller than two, sort ascending by id, keep
the lowest id as primary and consolidate. -/
def mergeTasks (taskGroup : List Task) (opts : MergeOptions) : Except String Task :=
  if taskGroup.length < 2 then
    .error "Task group must contain at least 2 tasks to merge"
  else
    match sortById taskGroup with
    | [] => .error "Task group must contain at least 2 tasks to merge"
    | primary :: others => mergeTasksCore primary others opts

/-- Merged-id map (old id to surviving id), as an insertion-ordered JS
Map. -/
def mapHasKey (m : List (Nat × Nat)) (k : Nat) : Bool := m.any (fun e => e.1 = k)

/-- Map.get. -/
def mapGet (m : List (Nat × Nat)) (k : Nat) : Option Nat :=
  (m.find? (fun e => e.1 = k)).map (·.2)

/-- Map.set: overwrite in place, otherwise append. -/
def mapSet (m : List (Nat × Nat)) (k v : Nat) : List (Nat × Nat) :=
  if mapHasKey m k then m.map (fun e => if e.1 = k then (k, v) else e)
  else m ++ [(k, v)]

/-- reindexDependencies: rewrite merged-away dependency ids to their
surviving id, deduplicate, and drop self-references; an empty map returns
the input unchanged. -/
def reindexDependencies (tasks : List Task) (mergedIdMap : List (Nat × Nat)) :
    List Task :=
  if mergedIdMap.length = 0 then tasks
  else tasks.map (fun t =>
    if t.dependencies.length = 0 then t
    else
      let updated := t.dependencies.map (fun d =>
        match mapGet mergedIdMap d with
        | some v => v
        | _ => d)
      { t with dependencies := (updated.foldl insertUniq []).filter (fun d => d ≠ t.id) })

/-- Concrete no-token task for the C5 witness. -/
def simTaskEmpty : Task := { id := 1 }

/-- Concrete task with token set containing authentication. -/
def simTaskAuth : Task := { id := 2, title := some "authentication" }

/-- Concrete task with token set disjoint from simTaskAuth. -/
def simTaskDb : Task := { id := 3, title := some "database" }

/-- Concrete task for the C6 witness: priority high, nothing that
escalates, so the rule result medium is not strictly higher. -/
def taskC6 : Task := { id := 1, priority := some "high", title := some "x" }

/-- Concrete task refuting C7 as stated: a present but empty description
(trimmed length 0) on a PRD task. -/
def taskC7 : Task :=
  { id := 1, sourceDocumentType := StrVal.scalar "PRD", description := some "" }

/-- Concrete task for the C7 witness, the example of the spec. -/
def taskC7w : Task :=
  { id := 2, sourceDocumentType := StrVal.scalar "PRD", description := some "Do it" }

/-! ## Document classifier (classify-document.js) -/

/-- One entry of CLASSIFICATION_PATTERNS: keyword literals (matched as
lowercased substrings), and the source strings of the title and section
regexes, evaluated by a regex-engine parameter so that every theorem
quantifies over the engine behaviour. -/
structure ClassPattern where
  keywords : List String
  titlePatterns : List String
  sectionPatterns : List String
  weightMultiplier : ℚ := 1

/-- CLASSIFICATION_PATTERNS, in source order. -/
def CLASSIFICATION_PATTERNS : List (String × ClassPattern) :=
  [("PRD",
    { keywords := ["problem statement", "user stories", "acceptance criteria",
        "business goals", "product requirements", "functional requirements",
        "user journey", "success metrics", "stakeholders", "product roadmap",
        "market analysis", "competitive analysis", "user personas",
        "business value", "kpis"],
      titlePatterns := ["product\\s+requirements?", "prd\\b",
        "requirements?\\s+document", "product\\s+spec"],
      sectionPatterns :=
        ["^#+\\s*(problem\\s+statement|business\\s+goals|user\\s+stories|acceptance\\s+criteria)",
         "^#+\\s*(success\\s+metrics|stakeholder|roadmap)"] }),
   ("UX_SPEC",
    { keywords := ["screen", "component", "figma", "button", "responsive",
        "wireframe", "user interface", "ui component", "design system",
        "interaction", "user experience", "navigation", "layout",
        "visual design", "accessibility", "usability", "prototype", "mockup",
        "user flow"],
      titlePatterns := ["ux\\s+(spec|design)", "ui\\s+(spec|design)",
        "design\\s+(spec|document)", "wireframe", "user\\s+interface"],
      sectionPatterns := ["^#+\\s*(screen|component|wireframe|user\\s+flow)",
        "^#+\\s*(design\\s+system|interaction|navigation)"] }),
   ("SDD",
    { keywords := ["architecture", "module", "service", "interface", "layer",
        "class diagram", "software design", "system architecture",
        "api design", "database schema", "data flow", "component diagram",
        "design patterns", "technical design", "software architecture",
        "system design", "implementation details"],
      titlePatterns := ["software\\s+design", "system\\s+design", "sdd\\b",
        "technical\\s+design", "architecture\\s+document"],
      sectionPatterns := ["^#+\\s*(architecture|system\\s+design|technical\\s+design)",
        "^#+\\s*(module|service|interface|layer)",
        "^#+\\s*(database|api\\s+design)"] }),
   ("TECH_SPEC",
    { keywords := ["api", "protocol", "integration", "rate limiting",
        "authentication", "technical specification", "implementation",
        "endpoint", "payload", "request", "response", "webhook", "sdk",
        "technical details", "security", "performance", "scalability",
        "monitoring"],
      titlePatterns := ["tech\\s+spec", "technical\\s+spec", "api\\s+spec",
        "integration\\s+spec"],
      sectionPatterns := ["^#+\\s*(api|endpoint|integration|protocol)",
        "^#+\\s*(authentication|security|performance)"] }),
   ("INFRA_SPEC",
    { keywords := ["deployment", "kubernetes", "ci/cd", "infrastructure",
        "load balancer", "docker", "container", "orchestration", "monitoring",
        "logging", "devops", "pipeline", "automation", "provisioning",
        "cloud", "aws", "azure", "gcp", "terraform", "ansible"],
      titlePatterns := ["infra\\s+spec", "infrastructure", "deployment\\s+guide",
        "devops", "ci\\/cd"],
      sectionPatterns := ["^#+\\s*(deployment|infrastructure|devops)",
        "^#+\\s*(kubernetes|docker|container)",
        "^#+\\s*(monitoring|logging|pipeline)"] }),
   ("DESIGN_SYSTEM",
    { keywords := ["design system", "style guide", "design tokens",
        "component library", "brand guidelines", "typography", "color palette",
        "spacing", "design principles", "visual identity", "ui kit",
        "pattern library", "atomic design", "design language",
        "brand identity"],
      titlePatterns := ["design\\s+system", "style\\s+guide",
        "component\\s+library", "design\\s+tokens", "brand\\s+guidelines"],
      sectionPatterns := ["^#+\\s*(design\\s+system|style\\s+guide|component\\s+library)",
        "^#+\\s*(typography|color|spacing|tokens)"] })]

/-- Keys of the DOCUMENT_ADAPTERS registry (document-adapters/index.js),
in source order; INFRA_SPEC and DESIGN_SYSTEM have no adapter. -/
def DOCUMENT_ADAPTER_KEYS : List String :=
  ["PRD", "PRODUCT_REQUIREMENTS", "UX_SPEC", "DESIGN_SPEC", "UI_SPEC", "SDD",
   "SOFTWARE_DESIGN", "TECH_SPEC", "ARCHITECTURE"]

/-- getSupportedDocumentTypes: Object.keys of the adapter registry. -/
def getSupportedDocumentTypes : List String := DOCUMENT_ADAPTER_KEYS

/-- Lookup in CLASSIFICATION_PATTERNS. -/
def lookupPattern (k : String) : Option ClassPattern :=
  (CLASSIFICATION_PATTERNS.find? (fun e => e.1 = k)).map (·.2)

/-- JS documentText.split with the newline separator. -/
def splitLines (s : String) : List String :=
  (s.data.splitOnP (fun c => c = '\n')).map String.mk

/-- calculateRegexScore: 40 percent keyword fraction, 30 percent binary
title-pattern hit on the first five lines, 30 percent section-pattern
fraction, normalized by the total possible weight and scaled by the
weight multiplier, capped at 1. The regex engine is the parameter rtest
(pattern source, line). -/
def calculateRegexScore (rtest : String → String → Bool) (documentText : String)
    (documentType : String) : ℚ :=
  match lookupPattern documentType with
  | Option.none => 0
  | some pattern =>
      let textLower := jsToLower documentText
      let lines := splitLines documentText
      let keywordMatches := (pattern.keywords.filter (fun k =>
        containsStr textLower (jsToLower k))).length
      let keywordScore :=
        min ((keywordMatches : ℚ) / (pattern.keywords.length : ℚ)) 1
      let titleScore : ℚ :=
        if pattern.titlePatterns.any (fun p =>
          (lines.take 5).any (fun line => rtest p line)) then 1 else 0
      let sectionMatches := (pattern.sectionPatterns.filter (fun sp =>
        lines.any (fun line => rtest sp line))).length
      let sectionScore :=
        min ((sectionMatches : ℚ) / ((max pattern.sectionPatterns.length 1 : Nat) : ℚ)) 1
      let score := keywordScore * (4 / 10) + titleScore * (3 / 10) + sectionScore * (3 / 10)
      let totalPossibleScore : ℚ := 4 / 10 + 3 / 10 + 3 / 10
      min ((score / totalPossibleScore) * pattern.weightMultiplier) 1

/-- Result triple of a classification. -/
structure ClassResult where
  type : String
  confidence : ℚ
  source : String
deriving DecidableEq, Repr

/-- Scores computed by classifyWithRegex: one entry per supported type
that has a classification pattern, in registry order. -/
def regexScores (rtest : String → String → Bool) (documentText : String) :
    List (String × ℚ) :=
  getSupportedDocumentTypes.filterMap (fun docType =>
    if (lookupPattern docType).isSome then
      some (docType, calculateRegexScore rtest documentText docType)
    else Option.none)

/-- classifyWithRegex: score every supported type that has a
classification pattern and keep the strictly highest score; ties and the
all-zero case keep OTHER-or-earlier. -/
def classifyWithRegex (rtest : String → String → Bool) (documentText : String) :
    ClassResult :=
  if documentText = "" ∨ (jsTrim documentText).length = 0 then
    { type := "OTHER", confidence := 0, source := "regex" }
  else
    let best := (regexScores rtest documentText).foldl
      (fun (b : String × ℚ) e => if e.2 > b.2 then e else b) ("OTHER", 0)
    { type := best.1, confidence := best.2, source := "regex" }

/-- classifyDocument, instrumented: the Bool of the result records
whether the LLM classification collaborator was invoked. The collaborator
is the parameter llm, modelling the validated result of classifyWithLLM
(which catches its own errors and returns confidence 0 on failure, so the
outermost catch of the source is unreachable). -/
def classifyDocument (rtest : String → String → Bool) (llm : String → ClassResult)
    (documentText : String) (useLLMFallback : Bool) (threshold : ℚ) :
    ClassResult × Bool :=
  if documentText = "" then ({ type := "OTHER", confidence := 0, source := "none" }, false)
  else
    let trimmedText := jsTrim documentText
    if trimmedText.length = 0 then
      ({ type := "OTHER", confidence := 0, source := "none" }, false)
    else
      let regexResult := classifyWithRegex rtest trimmedText
      if regexResult.confidence ≥ threshold then (regexResult, false)
      else if useLLMFallback then
        let llmResult := llm trimmedText
        if llmResult.confidence > 0 then (llmResult, true) else (regexResult, true)
      else (regexResult, false)

/-- Concrete all-matching regex engine for witnesses. -/
def rtestTrue : String → String → Bool := fun _ _ => true

/-- Concrete failing LLM collaborator for witnesses. -/
def llmNone : String → ClassResult := fun _ =>
  { type := "OTHER", confidence := 0, source := "llm" }

/-- Concrete document containing two PRD keywords, classified with
confidence 49/75 (above the default threshold 0.65) under rtestTrue. -/
def docC8 : String := "problem statement user stories"

/-- Concrete merge-group member for the C3 witness (lower id, listed
second to exercise the sort). -/
def taskC3a : Task :=
  { id := 1, title := some "alpha", dependencies := [3],
    sourceDocumentId := StrVal.scalar "d1",
    sourceDocumentType := StrVal.scalar "PRD", priority := some "low" }

/-- Concrete merge-group member for the C3 witness. -/
def taskC3b : Task :=
  { id := 2, title := some "beta", dependencies := [4, 1],
    sourceDocumentId := StrVal.scalar "d2",
    sourceDocumentType := StrVal.scalar "UX_SPEC", priority := some "high" }

/-- The consolidated task produced by merging taskC3b and taskC3a. -/
def mergedC3 : Task :=
  { id := 1, title := some "alpha", priority := some "high",
    dependencies := [3, 4, 1],
    sourceDocumentId := StrVal.array ["d1", "d2"],
    sourceDocumentType := StrVal.array ["PRD", "UX_SPEC"],
    estimationNote := some "Priority upgraded to 'high' due to task merge.",
    mergedFrom := [2] }

/-- Concrete merge-group member for C4: same source document on both. -/
def taskC4a : Task :=
  { id := 1, title := some "alpha", sourceDocumentId := StrVal.scalar "d1",
    sourceDocumentType := StrVal.scalar "PRD" }

/-- Concrete merge-group member for C4. -/
def taskC4b : Task :=
  { id := 2, title := some "beta", sourceDocumentId := StrVal.scalar "d1",
    sourceDocumentType := StrVal.scalar "PRD" }

/-- The consolidated task produced by merging taskC4a and taskC4b: the
singleton source-document unions are stored as one-element arrays. -/
def mergedC4 : Task :=
  { id := 1, title := some "alpha", priority := some "medium",
    sourceDocumentId := StrVal.array ["d1"],
    sourceDocumentType := StrVal.array ["PRD"],
    mergedFrom := [2] }

/-! ## Merge pipeline (merge-tasks.js, mergeTasksInTag) -/

/-- Insertion into an insertion-ordered JS Map of lists: append the task
to the list of its key, or open a new key at the end. -/
def groupInsert (acc : List (String × List Task)) (key : String) (t : Task) :
    List (String × List Task) :=
  if acc.any (fun e => e.1 = key) then
    acc.map (fun e => if e.1 = key then (e.1, e.2 ++ [t]) else e)
  else acc ++ [(key, [t])]

/-- Grouping fold shared by the candidate grouping (key function
createGroupingKey) and the hash tier (key function generateTaskHash):
group the tasks by their computed key, propagating the TypeError a key
computation may raise. -/
def groupFold (f : Task → Except String String) :
    List Task → List (String × List Task) → Except String (List (String × List Task))
  | [], acc => .ok acc
  | t :: ts, acc =>
      match f t with
      | .error e => .error e
      | .ok key => groupFold f ts (groupInsert acc key t)

/-- identifyDuplicateGroups: bucket the tasks by grouping key and keep
the buckets with more than one member. -/
def identifyDuplicateGroups (tasks : List Task) :
    Except String (List (List Task)) :=
  if tasks.length = 0 then .ok []
  else
    match groupFold createGroupingKey tasks [] with
    | .error e => .error e
    | .ok groups => .ok ((groups.map Prod.snd).filter (fun g => g.length > 1))

/-- Validated decision of the LLM merge-arbitration collaborator
(confirmMergeWithLLM catches its own errors and returns shouldMerge false
with confidence 0 on failure, so the collaborator is a total function).
-/
structure LLMDecision where
  shouldMerge : Bool
  confidence : ℚ

/-- One merge event of the report. The human-readable reasoning string of
the source (a fixed-point-formatted percentage or the collaborator's
prose) is not modelled; the similarity field is recorded exactly when the
strategy is semantic, as in the source. -/
structure MergeEvent where
  keptId : Nat
  mergedFrom : List Nat
  strategy : String
  hash : Option String := Option.none
  similarity : Option ℚ := Option.none

/-- Per-strategy counters of the report. -/
structure StrategyCounts where
  hashMatches : Nat := 0
  semanticMatches : Nat := 0
  llmDecisions : Nat := 0

/-- mergeReport. -/
structure MergeReport where
  originalCount : Nat
  mergedGroups : List MergeEvent
  finalCount : Nat
  strategy : StrategyCounts

/-- Result of mergeTasksInTag; the internal merged-id map is exposed as a
field so that the specification can speak about merged-away ids
(telemetry is not modelled, the collaborators are oracles). -/
structure MergeRunResult where
  mergedTasks : List Task
  mergeReport : MergeReport
  mergedIdMap : List (Nat × Nat)

/-- Mutable state threaded through the merge pipeline. -/
structure MTState where
  processedTasks : List Task
  mergedIdMap : List (Nat × Nat)
  mergedGroups : List MergeEvent
  counts : StrategyCounts

/-- JS findIndex on id followed by in-place replacement; no match leaves
the list unchanged. -/
def replaceById : List Task → Task → List Task
  | [], _ => []
  | t :: ts, m => if t.id = m.id then m :: ts else t :: replaceById ts m

/-- State update of one hash-tier merge event: the removed ids leave
processedTasks, the surviving consolidated task replaces its id in
place, each removed id maps to the kept id, and the event is recorded. -/
def hashMergeState (st : MTState) (removedIds : List Nat) (mergedTask : Task)
    (hash : String) : MTState :=
  { processedTasks := replaceById
      (st.processedTasks.filter (fun t => !removedIds.contains t.id)) mergedTask,
    mergedIdMap := removedIds.foldl
      (fun m rid => mapSet m rid mergedTask.id) st.mergedIdMap,
    mergedGroups := st.mergedGroups ++
      [{ keptId := mergedTask.id, mergedFrom := removedIds,
         strategy := "hash", hash := some hash }],
    counts := { st.counts with hashMatches := st.counts.hashMatches + 1 } }

/-- Hash tier on one hash bucket: buckets with more than one member are
merged unconditionally. -/
def applyHashGroup (opts : MergeOptions) (st : MTState)
    (entry : String × List Task) : Except String MTState :=
  if entry.2.length > 1 then
    match mergeTasks entry.2 opts with
    | .error e => .error e
    | .ok mergedTask =>
        .ok (hashMergeState st (entry.2.tail.map (·.id)) mergedTask entry.1)
  else .ok st

/-- Hash tier over all buckets of a group, in bucket-creation order. -/
def applyHashGroups (opts : MergeOptions) :
    List (String × List Task) → MTState → Except String MTState
  | [], st => .ok st
  | e :: es, st =>
      match applyHashGroup opts st e with
      | .error err => .error err
      | .ok st2 => applyHashGroups opts es st2

/-- Decision step of the semantic tier on one pair: the plain similarity
comparison, escalated to the LLM collaborator in the borderline band
(above one half but below the threshold) when useLLM is set; yields the
should-merge flag, the strategy tag, the similarity recorded on the event
(exactly when the strategy is semantic) and the updated counters
(llmDecisions counts every collaborator call, merged or not). -/
def semDecision (llm : Task → Task → LLMDecision) (opts : MergeOptions)
    (taskA taskB : Task) (counts : StrategyCounts) :
    Bool × String × Option ℚ × StrategyCounts :=
  let similarity := calculateSemanticSimilarity taskA taskB
  let sm0 : Bool := similarity ≥ opts.similarityThreshold
  if !sm0 && opts.useLLM && similarity > 1 / 2 then
    let d := llm taskA taskB
    (d.shouldMerge && d.confidence > 7 / 10, "llm", (Option.none : Option ℚ),
      { counts with llmDecisions := counts.llmDecisions + 1 })
  else (sm0, "semantic", some similarity, counts)

/-- State update of one semantic-tier merge event: taskB leaves
processedTasks, the consolidated task replaces its id in place, taskB's
id maps to the kept id, the event is recorded and the semantic counter
advances when the strategy is semantic. -/
def semMergeState (st : MTState) (taskB mergedTask : Task) (strategy : String)
    (simRec : Option ℚ) (counts : StrategyCounts) : MTState :=
  { processedTasks := replaceById
      (st.processedTasks.filter (fun t => !(t.id = taskB.id))) mergedTask,
    mergedIdMap := mapSet st.mergedIdMap taskB.id mergedTask.id,
    mergedGroups := st.mergedGroups ++
      [{ keptId := mergedTask.id, mergedFrom := [taskB.id],
         strategy := strategy, similarity := simRec }],
    counts := if strategy = "semantic" then
        { counts with semanticMatches := counts.semanticMatches + 1 }
      else counts }

/-- The spliced remaining list after a merge: indexOf taskB, then removal
at that index (no occurrence leaves the list unchanged). -/
def spliceOut (rem : List Task) (taskB : Task) : List Task :=
  match rem.findIdx? (fun t => t = taskB) with
  | some k => rem.eraseIdx k
  | _ => rem

/-- Inner loop of the semantic tier: fixed i, advancing j, with the
mutable remaining list (a merge splices taskB out and j still advances,
exactly as the JS loop does). The fuel only bounds the iteration count
and is chosen so that it cannot run out (j grows by one per call and the
list never grows). -/
def semInner (llm : Task → Task → LLMDecision) (opts : MergeOptions) :
    Nat → Nat → Nat → List Task → MTState → Except String (List Task × MTState)
  | 0, _, _, _, _ => .error "out of fuel"
  | fuel + 1, i, j, rem, st =>
      if j < rem.length then
        match rem.get? i, rem.get? j with
        | some taskA, some taskB =>
            if mapHasKey st.mergedIdMap taskA.id ||
                mapHasKey st.mergedIdMap taskB.id then
              semInner llm opts fuel i (j + 1) rem st
            else
              match semDecision llm opts taskA taskB st.counts with
              | (should, strat, simRec, counts2) =>
                if should then
                  match mergeTasks [taskA, taskB] opts with
                  | .error e => .error e
                  | .ok mergedTask =>
                      semInner llm opts fuel i (j + 1) (spliceOut rem taskB)
                        (semMergeState st taskB mergedTask strat simRec counts2)
                else
                  semInner llm opts fuel i (j + 1) rem { st with counts := counts2 }
        | _, _ => .error "index out of range"
      else .ok (rem, st)

/-- Outer loop of the semantic tier: i advances while smaller than the
length of the (shrinking) remaining list minus one. -/
def semOuter (llm : Task → Task → LLMDecision) (opts : MergeOptions) :
    Nat → Nat → List Task → MTState → Except String (List Task × MTState)
  | 0, _, _, _ => .error "out of fuel"
  | fuel + 1, i, rem, st =>
      if i < rem.length - 1 then
        match semInner llm opts (rem.length + 1) i (i + 1) rem st with
        | .error e => .error e
        | .ok (rem2, st2) => semOuter llm opts fuel (i + 1) rem2 st2
      else .ok (rem, st)

/-- The members of a candidate group that were not merged away and still
sit in processedTasks: the semantic tier runs on these. -/
def remainingInGroup (group : List Task) (st : MTState) : List Task :=
  group.filter (fun t =>
    !mapHasKey st.mergedIdMap t.id &&
      st.processedTasks.any (fun pt => pt.id = t.id))

/-- One candidate group: hash tier, then the semantic/LLM tier over the
members that were not merged away and still sit in processedTasks. -/
def processGroup (sha : String → String) (llm : Task → Task → LLMDecision)
    (opts : MergeOptions) (group : List Task) (st : MTState) :
    Except String MTState :=
  match groupFold (generateTaskHash sha) group [] with
  | .error e => .error e
  | .ok hashGroups =>
      match applyHashGroups opts hashGroups st with
      | .error e => .error e
      | .ok st2 =>
          if (remainingInGroup group st2).length > 1 then
            match semOuter llm opts ((remainingInGroup group st2).length + 1) 0
                (remainingInGroup group st2) st2 with
            | .error e => .error e
            | .ok (_, st3) => .ok st3
          else .ok st2

/-- All candidate groups in order. -/
def processGroups (sha : String → String) (llm : Task → Task → LLMDecision)
    (opts : MergeOptions) : List (List Task) → MTState → Except String MTState
  | [], st => .ok st
  | g :: gs, st =>
      match processGroup sha llm opts g st with
      | .error e => .error e
      | .ok st2 => processGroups sha llm opts gs st2

/-- mergeTasksInTag: candidate grouping, hash tier, semantic/LLM tier,
dependency reindexing, report. The SHA256 primitive and the
merge-arbitration collaborator are oracle parameters. -/
def mergeTasksInTag (sha : String → String) (llm : Task → Task → LLMDecision)
    (tasks : List Task) (opts : MergeOptions) : Except String MergeRunResult :=
  match identifyDuplicateGroups tasks with
  | .error e => .error e
  | .ok duplicateGroups =>
      match processGroups sha llm opts duplicateGroups
          { processedTasks := tasks, mergedIdMap := [], mergedGroups := [],
            counts := {} } with
      | .error e => .error e
      | .ok st =>
          let finalTasks := reindexDependencies st.processedTasks st.mergedIdMap
          .ok { mergedTasks := finalTasks,
                mergeReport := { originalCount := tasks.length,
                                 mergedGroups := st.mergedGroups,
                                 finalCount := finalTasks.length,
                                 strategy := st.counts },
                mergedIdMap := st.mergedIdMap }

/-! ## Hierarchy sort (process-document-hierarchy.js) -/

/-- DocumentSource configuration entry (the fields the sort reads). -/
structure DocSource where
  id : String
  parentId : Option String := Option.none
deriving DecidableEq, Repr

/-- docMap.has for an id. -/
def hasDocId (docs : List DocSource) (i : String) : Bool :=
  docs.any (fun d => d.id = i)

/-- The docMap node of an id (the Map constructor keeps the last
duplicate). -/
def findDoc (docs : List DocSource) (i : String) : Option DocSource :=
  (docs.filter (fun d => d.id = i)).getLast?

/-- The children ids registered on the docMap node i: sources whose
truthy parentId equals i, provided the parent id exists in the map (a
dangling parentId only logs a warning and registers nothing). -/
def childrenOf (docs : List DocSource) (i : String) : List String :=
  (docs.filter (fun d => strTruthy d.parentId && d.parentId.getD "" = i &&
    hasDocId docs (d.parentId.getD ""))).map (·.id)

/-- The roots, in configuration order: sources with a falsy parentId. A
source with a dangling parentId is NOT a root - it is neither pushed to
roots nor registered as a child. -/
def rootIds (docs : List DocSource) : List String :=
  (docs.filter (fun d => !strTruthy d.parentId)).map (·.id)

/-- Mutable traversal state of sortDocumentSources. -/
structure SortSt where
  sorted : List DocSource
  visited : List String
  visiting : List String
deriving Repr

/-- Work item of the defunctionalized depth-first visit. -/
inductive VisitItem where
  | enter (i : String)
  | leave (i : String)
deriving DecidableEq, Repr

/-- Defunctionalized visit of sortDocumentSources: an enter item performs
the body of visit up to the recursive calls (a missing node returns, a
visited node returns, a visiting node raises the circular-dependency
error, otherwise the node is appended to sorted and marked visiting) and
schedules the children enters followed by the leave marker that performs
the epilogue (mark visited, unmark visiting). This is the standard
defunctionalization of the recursive visit of the source; the fuel only
bounds the recursion depth and is chosen large enough never to run out.
-/
def dfsVisit (docs : List DocSource) : Nat → List VisitItem → SortSt →
    Except String SortSt
  | 0, _, _ => .error "out of fuel"
  | _ + 1, [], st => .ok st
  | fuel + 1, VisitItem.enter i :: rest, st =>
      match findDoc docs i with
      | Option.none => dfsVisit docs fuel rest st
      | some node =>
          if i ∈ st.visited then dfsVisit docs fuel rest st
          else if i ∈ st.visiting then
            .error ("Circular dependency detected at document \"" ++ i ++ "\"")
          else
            dfsVisit docs fuel
              ((childrenOf docs i).map VisitItem.enter ++ (VisitItem.leave i :: rest))
              { st with sorted := st.sorted ++ [node],
                        visiting := i :: st.visiting }
  | fuel + 1, VisitItem.leave i :: rest, st =>
      dfsVisit docs fuel rest
        { st with visited := i :: st.visited, visiting := st.visiting.erase i }

/-- sortDocumentSources: visit every root in configuration order; sources
unreachable from the roots (members of a parentId cycle, sources with a
dangling parentId) are only warned about and stay out of the returned
order. -/
def sortDocumentSources (docs : List DocSource) : Except String (List DocSource) :=
  match dfsVisit docs ((docs.length + 2) * (docs.length + 2) * (docs.length + 2))
      ((rootIds docs).map VisitItem.enter)
      { sorted := [], visited := [], visiting := [] } with
  | .error e => .error e
  | .ok st => .ok st.sorted

/-- Processing order of processDocumentHierarchy: the per-source loop
iterates exactly the sorted list, and the run aborts before processing
any document only when the sort throws. -/
def hierarchyProcessingOrder (docs : List DocSource) : Except String (List String) :=
  (sortDocumentSources docs).map (fun l => l.map (·.id))

/-- The invariant threaded through the merge pipeline, relative to the id
list of the input batch: the surviving tasks are exactly the input ids
not yet merged away (in input order), every merged-away key is an input
id, and the merged-id map has pairwise-distinct keys. -/
def MTInv (inputIds : List Nat) (st : MTState) : Prop :=
  st.processedTasks.map Task.id
      = inputIds.filter (fun i => !mapHasKey st.mergedIdMap i) ∧
  (∀ k, mapHasKey st.mergedIdMap k = true → k ∈ inputIds) ∧
  (st.mergedIdMap.map Prod.fst).Nodup

/-- Merge-arbitration collaborator that never merges, for concrete runs.
-/
def llmNoMerge : Task → Task → LLMDecision :=
  fun _ _ => { shouldMerge := false, confidence := 0 }

/-- A single task with no duplicate partner: the pipeline returns it
unchanged. -/
def soloW : Task := { id := 7, title := some "Solo task" }

/-- The run result of mergeTasksInTag on the singleton batch [soloW]. -/
def soloRun : MergeRunResult :=
  { mergedTasks := [soloW],
    mergeReport := { originalCount := 1, mergedGroups := [], finalCount := 1,
                     strategy := {} },
    mergedIdMap := [] }

/-! ## Theorems -/

theorem str_append_assoc (a b c : String) : a ++ b ++ c = a ++ (b ++ c) := by
  apply String.ext
  simp [String.data_append, List.append_assoc]

theorem priorityOrderOf_jsOr_some (p : String) :
    priorityOrderOf (jsOr (some p) "medium") = priorityOrderOf p := by
  by_cases h : p = ""
  · subst h; rfl
  · simp [jsOr, h]

/-- Membership of a fragment in a joined list gives a substring of the
join; used for the reason strings of the rule engine. -/
theorem isSubstr_joinWith {a f : String} (sep : String) {l : List String}
    (hs : IsSubstr a f) (hm : f ∈ l) : IsSubstr a (joinWith sep l) := by
  induction l with
  | nil => cases hm
  | cons b bs ih =>
      obtain ⟨p, q, hpq⟩ := hs
      cases hm with
      | head =>
          cases bs with
          | nil => exact ⟨p, q, hpq⟩
          | cons c cs =>
              refine ⟨p, q ++ (sep ++ joinWith sep (c :: cs)), ?_⟩
              show f ++ sep ++ joinWith sep (c :: cs) = _
              rw [hpq]
              simp only [str_append_assoc]
      | tail _ hmem =>
          cases bs with
          | nil => cases hmem
          | cons c cs =>
              obtain ⟨p2, q2, h2⟩ := ih hmem
              refine ⟨b ++ sep ++ p2, q2, ?_⟩
              show b ++ sep ++ joinWith sep (c :: cs) = _
              rw [h2]
              simp only [str_append_assoc]

/-- Helper: whenever the short-description demotion fires, the rule chain
ends at level low regardless of every other rule. -/
theorem escalateCore_priority_of_shortDescription (t : Task) (fires : Bool)
    (h : demShortDescription t = true) : (escalateCore t fires).priority = "low" := by
  simp only [escalateCore, h, if_true, ite_self]
  rfl

/-- Helper: whenever the short-description demotion fires, its fragment is
a substring of the joined escalation reason. -/
theorem escalateCore_reason_of_shortDescription (t : Task) (fires : Bool)
    (h : demShortDescription t = true) :
    IsSubstr "Very short description" (escalateCore t fires).escalationReason := by
  simp only [escalateCore, h, if_true]
  refine isSubstr_joinWith "; "
    (f := "Very short description - possibly incomplete task")
    ⟨"", " - possibly incomplete task", by decide⟩ ?_
  simp

/-- C6: escalateAfterMerge never lowers a task's priority in the order
low < medium < high, and when the rule-engine priority is not strictly
higher than the current one the input task is returned unchanged (so no
escalationReason is added). -/
theorem escalateAfterMerge_monotone (t t' : Task)
    (h : escalateAfterMerge t = Except.ok t') :
    taskPriorityLevel t ≤ taskPriorityLevel t' ∧
    (∀ res, escalateTaskPriority t = Except.ok res →
      isPriorityHigher res.priority (jsOr t.priority "medium") = false → t' = t) := by
  unfold escalateAfterMerge at h
  cases hres : escalateTaskPriority t with
  | error e => rw [hres] at h; exact Except.noConfusion h
  | ok res =>
      rw [hres] at h
      replace h : (if isPriorityHigher res.priority (jsOr t.priority "medium") then
          Except.ok { t with priority := some res.priority,
                             escalationReason := some res.escalationReason }
        else Except.ok t) = Except.ok t' := h
      cases hb : isPriorityHigher res.priority (jsOr t.priority "medium") with
      | true =>
          rw [if_pos hb] at h
          have ht' : t' = { t with priority := some res.priority,
                                   escalationReason := some res.escalationReason } :=
            (Except.ok.inj h).symm
          subst ht'
          constructor
          · have hgt : priorityOrderOf (jsOr t.priority "medium") <
                priorityOrderOf res.priority := by
              have := hb
              unfold isPriorityHigher at this
              exact of_decide_eq_true this
            unfold taskPriorityLevel
            rw [show ({ t with priority := some res.priority,
                               escalationReason := some res.escalationReason } : Task).priority
                  = some res.priority from rfl]
            rw [priorityOrderOf_jsOr_some]
            exact Nat.le_of_lt hgt
          · intro res' hres' hfalse
            have : res = res' := Except.ok.inj hres'
            subst this
            rw [hb] at hfalse
            exact Bool.noConfusion hfalse
      | false =>
          rw [if_neg (by simp [hb])] at h
          have ht' : t' = t := (Except.ok.inj h).symm
          subst ht'
          exact ⟨Nat.le_refl _, fun _ _ _ => rfl⟩

/-- C6 witness: a high-priority task that no rule escalates is returned
unchanged by escalateAfterMerge, and its level does not drop. -/
theorem escalateAfterMerge_monotone_witness :
    escalateAfterMerge taskC6 = Except.ok taskC6 ∧
    taskPriorityLevel taskC6 ≤ taskPriorityLevel taskC6 :=
  ⟨rfl, (escalateAfterMerge_monotone taskC6 taskC6 rfl).1⟩

/-- C7 counterexample: a PRD task with a present but empty description has
trimmed description length 0 < 20, yet the rule engine returns high, not
low, because the demotion rule additionally requires a truthy (non-empty)
description. -/
theorem escalate_short_description_cex :
    (jsTrim (taskC7.description.getD "")).length < 20 ∧
    escalateTaskPriority taskC7 =
      Except.ok { priority := "high",
                  escalationReason := "Base priority 'high' from document type 'PRD'" } :=
  ⟨by decide, rfl⟩

/-- C7 amended: for every task whose description is present, non-empty and
of trimmed length under 20, the rule engine result has priority low -
overriding every escalation rule including the epic rule - and its reason
contains the fragment Very short description. -/
theorem escalate_short_description (t : Task) (res : EscalationResult) (d : String)
    (hres : escalateTaskPriority t = Except.ok res)
    (hd : t.description = some d) (hne : d ≠ "") (hlen : (jsTrim d).length < 20) :
    res.priority = "low" ∧ IsSubstr "Very short description" res.escalationReason := by
  have hd2 : demShortDescription t = true := by
    unfold demShortDescription strTruthy jsOr
    rw [hd]
    simp [hne, hlen]
  unfold escalateTaskPriority at hres
  cases hfire : epicRuleCond t with
  | error e => rw [hfire] at hres; exact Except.noConfusion hres
  | ok fires =>
      rw [hfire] at hres
      have h2 : Except.ok (escalateCore t fires) = Except.ok res := hres
      have hres2 : res = escalateCore t fires := (Except.ok.inj h2).symm
      subst hres2
      exact ⟨escalateCore_priority_of_shortDescription t fires hd2,
             escalateCore_reason_of_shortDescription t fires hd2⟩

/-- C7 witness: the spec example, a PRD task with description Do it, is
demoted to low with the short-description fragment in its reason. -/
theorem escalate_short_description_witness :
    taskC7w.description = some "Do it" ∧
    ((escalateCore taskC7w false).priority = "low" ∧
      IsSubstr "Very short description" (escalateCore taskC7w false).escalationReason) :=
  ⟨rfl, escalate_short_description taskC7w (escalateCore taskC7w false) "Do it"
    rfl rfl (by decide) (by decide)⟩

/-- C5: the similarity is symmetric, reflexively 1, 1 on two empty token
sets, 0 when exactly one token set is empty, and 0 on disjoint,
not-both-empty vocabularies (when both token sets are empty they are
trivially disjoint but the code, the spec and the claim itself define
that case as 1, so the disjointness clause is read as not-both-empty). -/
theorem similarity_properties :
    (∀ a b, calculateSemanticSimilarity a b = calculateSemanticSimilarity b a) ∧
    (∀ a, calculateSemanticSimilarity a a = 1) ∧
    (∀ a b, taskTokens a = ∅ → taskTokens b = ∅ →
      calculateSemanticSimilarity a b = 1) ∧
    (∀ a b, taskTokens a = ∅ → taskTokens b ≠ ∅ →
      calculateSemanticSimilarity a b = 0) ∧
    (∀ a b, taskTokens a ≠ ∅ → taskTokens b = ∅ →
      calculateSemanticSimilarity a b = 0) ∧
    (∀ a b, taskTokens a ∩ taskTokens b = ∅ →
      ¬(taskTokens a = ∅ ∧ taskTokens b = ∅) →
      calculateSemanticSimilarity a b = 0) := by
  refine ⟨?_, ?_, ?_, ?_, ?_, ?_⟩
  · intro a b
    by_cases ha : (taskTokens a).card = 0 <;> by_cases hb : (taskTokens b).card = 0 <;>
      simp [calculateSemanticSimilarity, ha, hb, Finset.inter_comm, Finset.union_comm]
  · intro a
    by_cases ha : (taskTokens a).card = 0
    · simp [calculateSemanticSimilarity, ha]
    · have hne : ((taskTokens a).card : ℚ) ≠ 0 := by
        exact_mod_cast ha
      simp [calculateSemanticSimilarity, ha, Finset.inter_self, Finset.union_self,
        div_self hne]
  · intro a b ha hb
    simp [calculateSemanticSimilarity, ha, hb]
  · intro a b ha hb
    have hb' : (taskTokens b).card ≠ 0 := by
      simpa [Finset.card_eq_zero] using hb
    simp [calculateSemanticSimilarity, ha, hb']
  · intro a b ha hb
    have ha' : (taskTokens a).card ≠ 0 := by
      simpa [Finset.card_eq_zero] using ha
    simp [calculateSemanticSimilarity, ha', hb]
  · intro a b hd hne
    by_cases ha : (taskTokens a).card = 0 <;> by_cases hb : (taskTokens b).card = 0
    · exact absurd ⟨Finset.card_eq_zero.mp ha, Finset.card_eq_zero.mp hb⟩ hne
    · simp [calculateSemanticSimilarity, ha, hb]
    · simp [calculateSemanticSimilarity, ha, hb]
    · simp [calculateSemanticSimilarity, ha, hb, hd]

/-- C5 witness: the hypothesis-bearing parts of similarity_properties
applied at concrete tasks (no tokens; token authentication; token
database). -/
theorem similarity_properties_witness :
    calculateSemanticSimilarity simTaskEmpty simTaskEmpty = 1 ∧
    calculateSemanticSimilarity simTaskEmpty simTaskAuth = 0 ∧
    calculateSemanticSimilarity simTaskAuth simTaskEmpty = 0 ∧
    calculateSemanticSimilarity simTaskAuth simTaskDb = 0 :=
  ⟨similarity_properties.2.2.1 simTaskEmpty simTaskEmpty (by decide) (by decide),
   similarity_properties.2.2.2.1 simTaskEmpty simTaskAuth (by decide) (by decide),
   similarity_properties.2.2.2.2.1 simTaskAuth simTaskEmpty (by decide) (by decide),
   similarity_properties.2.2.2.2.2 simTaskAuth simTaskDb (by decide) (by decide)⟩

theorem mem_insertUniq [DecidableEq α] (acc : List α) (x y : α) :
    y ∈ insertUniq acc x ↔ y ∈ acc ∨ y = x := by
  unfold insertUniq
  by_cases h : x ∈ acc
  · rw [if_pos h]
    constructor
    · exact Or.inl
    · rintro (hy | rfl)
      · exact hy
      · exact h
  · rw [if_neg h]
    simp

theorem nodup_insertUniq [DecidableEq α] (acc : List α) (x : α) (h : acc.Nodup) :
    (insertUniq acc x).Nodup := by
  unfold insertUniq
  by_cases hx : x ∈ acc
  · rwa [if_pos hx]
  · rw [if_neg hx]
    simp [List.nodup_append, h, hx]

theorem mem_foldl_insertUniq [DecidableEq α] (l : List α) (acc : List α) (y : α) :
    y ∈ l.foldl insertUniq acc ↔ y ∈ acc ∨ y ∈ l := by
  induction l generalizing acc with
  | nil => simp
  | cons a as ih =>
      rw [List.foldl_cons, ih, mem_insertUniq]
      simp [List.mem_cons, or_assoc]

theorem nodup_foldl_insertUniq [DecidableEq α] (l : List α) (acc : List α)
    (h : acc.Nodup) : (l.foldl insertUniq acc).Nodup := by
  induction l generalizing acc with
  | nil => simpa
  | cons a as ih => exact ih _ (nodup_insertUniq _ _ h)

theorem mem_collectStep (acc : List String) (v : StrVal) (s : String) :
    s ∈ collectStep acc v ↔ s ∈ acc ∨ svContributes s v := by
  cases v with
  | none => simp [collectStep, svContributes]
  | scalar x =>
      by_cases hx : x = ""
      · simp [collectStep, svContributes, hx]
      · rw [show collectStep acc (StrVal.scalar x) = insertUniq acc x by
          simp [collectStep, hx]]
        rw [mem_insertUniq]
        simp [svContributes, hx, eq_comm]
  | array l => simp [collectStep, svContributes, mem_foldl_insertUniq]

theorem nodup_collectStep (acc : List String) (v : StrVal) (h : acc.Nodup) :
    (collectStep acc v).Nodup := by
  cases v with
  | none => simpa [collectStep]
  | scalar x =>
      by_cases hx : x = ""
      · simpa [collectStep, hx]
      · rw [show collectStep acc (StrVal.scalar x) = insertUniq acc x by
          simp [collectStep, hx]]
        exact nodup_insertUniq _ _ h
  | array l => exact nodup_foldl_insertUniq _ _ h

theorem mem_collectVals (vs : List StrVal) (s : String) :
    s ∈ collectVals vs ↔ ∃ v ∈ vs, svContributes s v := by
  have aux : ∀ (l : List StrVal) (acc : List String),
      s ∈ l.foldl collectStep acc ↔ s ∈ acc ∨ ∃ v ∈ l, svContributes s v := by
    intro l
    induction l with
    | nil => intro acc; simp
    | cons v l ih =>
        intro acc
        rw [List.foldl_cons, ih, mem_collectStep]
        constructor
        · rintro ((h | h) | ⟨w, hw, hc⟩)
          · exact Or.inl h
          · exact Or.inr ⟨v, List.mem_cons_self _ _, h⟩
          · exact Or.inr ⟨w, List.mem_cons_of_mem _ hw, hc⟩
        · rintro (h | ⟨w, hw, hc⟩)
          · exact Or.inl (Or.inl h)
          · rcases List.mem_cons.mp hw with rfl | hw
            · exact Or.inl (Or.inr hc)
            · exact Or.inr ⟨w, hw, hc⟩
  rw [show collectVals vs = vs.foldl collectStep [] from rfl, aux]
  simp

theorem nodup_collectVals (vs : List StrVal) : (collectVals vs).Nodup := by
  have aux : ∀ (l : List StrVal) (acc : List String), acc.Nodup →
      (l.foldl collectStep acc).Nodup := by
    intro l
    induction l with
    | nil => intro acc h; simpa
    | cons v l ih => intro acc h; exact ih _ (nodup_collectStep _ _ h)
  exact aux vs [] List.nodup_nil

theorem mem_depsUnion (ts : List Task) (d : Nat) :
    d ∈ depsUnion ts ↔ ∃ t ∈ ts, d ∈ t.dependencies := by
  have aux : ∀ (l : List Task) (acc : List Nat),
      d ∈ l.foldl (fun acc t => t.dependencies.foldl insertUniq acc) acc ↔
        d ∈ acc ∨ ∃ t ∈ l, d ∈ t.dependencies := by
    intro l
    induction l with
    | nil => intro acc; simp
    | cons t l ih =>
        intro acc
        rw [List.foldl_cons, ih, mem_foldl_insertUniq]
        constructor
        · rintro ((h | h) | ⟨u, hu, hd⟩)
          · exact Or.inl h
          · exact Or.inr ⟨t, List.mem_cons_self _ _, h⟩
          · exact Or.inr ⟨u, List.mem_cons_of_mem _ hu, hd⟩
        · rintro (h | ⟨u, hu, hd⟩)
          · exact Or.inl (Or.inl h)
          · rcases List.mem_cons.mp hu with rfl | hu
            · exact Or.inl (Or.inr hd)
            · exact Or.inr ⟨u, hu, hd⟩
  rw [show depsUnion ts = ts.foldl (fun acc t => t.dependencies.foldl insertUniq acc) []
    from rfl, aux]
  simp

/-- escalateAfterMerge changes only priority and escalationReason. -/
theorem escalateAfterMerge_preserves (t et : Task)
    (h : escalateAfterMerge t = Except.ok et) :
    et.id = t.id ∧ et.mergedFrom = t.mergedFrom ∧
    et.dependencies = t.dependencies ∧
    et.sourceDocumentId = t.sourceDocumentId ∧
    et.sourceDocumentType = t.sourceDocumentType := by
  unfold escalateAfterMerge at h
  cases hres : escalateTaskPriority t with
  | error e => rw [hres] at h; exact Except.noConfusion h
  | ok res =>
      rw [hres] at h
      replace h : (if isPriorityHigher res.priority (jsOr t.priority "medium") then
          Except.ok { t with priority := some res.priority,
                             escalationReason := some res.escalationReason }
        else Except.ok t) = Except.ok et := h
      split at h <;> (obtain rfl := Except.ok.inj h; exact ⟨rfl, rfl, rfl, rfl, rfl⟩)

/-- Field computation of the pure consolidation: surviving id, mergedFrom,
dependency union and the always-array source-document unions. -/
theorem mergeConsolidate_fields (p : Task) (o : List Task) :
    (mergeConsolidate p o).id = p.id ∧
    (mergeConsolidate p o).mergedFrom = o.map (·.id) ∧
    (mergeConsolidate p o).dependencies = depsUnion (p :: o) ∧
    (mergeConsolidate p o).sourceDocumentId =
      StrVal.array (collectVals ((p :: o).map (·.sourceDocumentId))) ∧
    (mergeConsolidate p o).sourceDocumentType =
      StrVal.array (collectVals ((p :: o).map (·.sourceDocumentType))) := by
  refine ⟨?_, ?_, ?_, ?_, ?_⟩ <;>
    simp [mergeConsolidate, apply_ite Task.id, apply_ite Task.mergedFrom,
      apply_ite Task.dependencies, apply_ite Task.sourceDocumentId,
      apply_ite Task.sourceDocumentType, ite_self]

/-- Fields of the mergeTasksCore result, through the optional escalation
step. -/
theorem mergeTasksCore_fields (p : Task) (o : List Task) (opts : MergeOptions)
    (m : Task) (h : mergeTasksCore p o opts = Except.ok m) :
    m.id = p.id ∧ m.mergedFrom = o.map (·.id) ∧
    m.dependencies = depsUnion (p :: o) ∧
    m.sourceDocumentId =
      StrVal.array (collectVals ((p :: o).map (·.sourceDocumentId))) ∧
    m.sourceDocumentType =
      StrVal.array (collectVals ((p :: o).map (·.sourceDocumentType))) := by
  obtain ⟨h1, h2, h3, h4, h5⟩ := mergeConsolidate_fields p o
  simp only [mergeTasksCore] at h
  split at h
  · -- escalate branch
    cases heam : escalateAfterMerge (mergeConsolidate p o) with
    | error e => rw [heam] at h; exact Except.noConfusion h
    | ok et =>
        rw [heam] at h
        obtain ⟨e1, e2, e3, e4, e5⟩ := escalateAfterMerge_preserves _ _ heam
        replace h : (if et.priority ≠ (mergeConsolidate p o).priority then
            Except.ok { et with estimationNote := some (if strTruthy et.estimationNote then
                jsOr et.estimationNote "" ++ "; " ++
                  ("Priority escalated to '" ++ jsShowOpt et.priority ++
                    "' after merge (" ++ jsShowOpt et.escalationReason ++ ")")
              else ("Priority escalated to '" ++ jsShowOpt et.priority ++
                "' after merge (" ++ jsShowOpt et.escalationReason ++ ")")) }
          else Except.ok et) = Except.ok m := h
        split at h <;> obtain rfl := Except.ok.inj h
        · exact ⟨e1.trans h1, e2.trans h2, e3.trans h3, e4.trans h4, e5.trans h5⟩
        · exact ⟨e1.trans h1, e2.trans h2, e3.trans h3, e4.trans h4, e5.trans h5⟩
  · obtain rfl := Except.ok.inj h
    exact ⟨h1, h2, h3, h4, h5⟩

/-- C3: merging a group with pairwise-distinct positive ids keeps the
least id, records the other ids ascending in mergedFrom, and after
dependency reindexing through the merged-id map the surviving task keeps
every input dependency that was neither merged away nor its own id. -/
theorem mergeTasks_conservation (ts : List Task) (opts : MergeOptions) (m : Task)
    (hlen : 2 ≤ ts.length) (hpos : ∀ t ∈ ts, 0 < t.id)
    (hnd : (ts.map Task.id).Nodup) (h : mergeTasks ts opts = Except.ok m) :
    (List.Sorted (· < ·) (m.id :: m.mergedFrom) ∧
      (m.id :: m.mergedFrom).Perm (ts.map Task.id)) ∧
    ∀ t' ∈ reindexDependencies [m] (m.mergedFrom.map (fun i => (i, m.id))),
      ∀ d, (∃ t ∈ ts, d ∈ t.dependencies) → d ∉ m.mergedFrom → d ≠ m.id →
        d ∈ t'.dependencies := by
  unfold mergeTasks at h
  rw [if_neg (Nat.not_lt.mpr hlen)] at h
  cases hs : sortById ts with
  | nil => rw [hs] at h; exact Except.noConfusion h
  | cons p o =>
      rw [hs] at h
      obtain ⟨hid, hmf, hdeps, _, _⟩ := mergeTasksCore_fields p o opts m h
      have hs' : List.insertionSort (fun a b : Task => a.id ≤ b.id) ts = p :: o := hs
      have hperm : (p :: o).Perm ts :=
        hs' ▸ List.perm_insertionSort (fun a b : Task => a.id ≤ b.id) ts
      have hsorted : List.Sorted (fun a b : Task => a.id ≤ b.id) (p :: o) := by
        haveI : IsTotal Task (fun a b : Task => a.id ≤ b.id) :=
          ⟨fun a b => Nat.le_total a.id b.id⟩
        haveI : IsTrans Task (fun a b : Task => a.id ≤ b.id) :=
          ⟨fun _ _ _ hab hbc => Nat.le_trans hab hbc⟩
        have hst := List.sorted_insertionSort (fun a b : Task => a.id ≤ b.id) ts
        rwa [hs'] at hst
      have hidlist : m.id :: m.mergedFrom = (p :: o).map Task.id := by
        rw [hid, hmf]; rfl
      have hpermid : (m.id :: m.mergedFrom).Perm (ts.map Task.id) := by
        rw [hidlist]; exact hperm.map Task.id
      have hnodup2 : ((p :: o).map Task.id).Nodup :=
        ((hperm.map Task.id).nodup_iff).mpr hnd
      have hsortedid : List.Sorted (· ≤ ·) ((p :: o).map Task.id) :=
        List.Pairwise.map Task.id (fun _ _ hab => hab) hsorted
      have hsortedlt : List.Sorted (· < ·) ((p :: o).map Task.id) :=
        (hsortedid.and hnodup2).imp (fun hab => Nat.lt_of_le_of_ne hab.1 hab.2)
      refine ⟨⟨hidlist ▸ hsortedlt, hpermid⟩, ?_⟩
      intro t' ht' d hd hdnm hdni
      have hdm : d ∈ m.dependencies := by
        rw [hdeps, mem_depsUnion]
        obtain ⟨t, htts, hdt⟩ := hd
        exact ⟨t, (hperm.mem_iff).mpr htts, hdt⟩
      unfold reindexDependencies at ht'
      by_cases hml : (m.mergedFrom.map (fun i => (i, m.id))).length = 0
      · rw [if_pos hml] at ht'
        obtain rfl := List.mem_singleton.mp ht'
        exact hdm
      · rw [if_neg hml] at ht'
        rw [show ([m].map (fun t =>
            if t.dependencies.length = 0 then t
            else { t with dependencies :=
              ((t.dependencies.map (fun dd =>
                match mapGet (m.mergedFrom.map (fun i => (i, m.id))) dd with
                | some v => v
                | _ => dd)).foldl insertUniq []).filter (fun dd => dd ≠ t.id) })) =
          [if m.dependencies.length = 0 then m
           else { m with dependencies :=
             ((m.dependencies.map (fun dd =>
               match mapGet (m.mergedFrom.map (fun i => (i, m.id))) dd with
               | some v => v
               | _ => dd)).foldl insertUniq []).filter (fun dd => dd ≠ m.id) }]
          from rfl] at ht'
        obtain rfl := List.mem_singleton.mp ht'
        by_cases hdl : m.dependencies.length = 0
        · rw [if_pos hdl]
          exact hdm
        · rw [if_neg hdl]
          show d ∈ ((m.dependencies.map (fun dd =>
              match mapGet (m.mergedFrom.map (fun i => (i, m.id))) dd with
              | some v => v
              | _ => dd)).foldl insertUniq []).filter (fun dd => dd ≠ m.id)
          have hget : mapGet (m.mergedFrom.map (fun i => (i, m.id))) d = Option.none := by
            unfold mapGet
            rw [List.find?_eq_none.mpr]
            · rfl
            · intro x hx
              obtain ⟨i, hi, rfl⟩ := List.mem_map.mp hx
              simp only [decide_eq_true_eq]
              intro hide
              exact hdnm (hide ▸ hi)
          have hmem1 : d ∈ m.dependencies.map (fun dd =>
              match mapGet (m.mergedFrom.map (fun i => (i, m.id))) dd with
              | some v => v
              | _ => dd) := by
            refine List.mem_map.mpr ⟨d, hdm, ?_⟩
            rw [hget]
          refine List.mem_filter.mpr ⟨(mem_foldl_insertUniq _ [] d).mpr (Or.inr hmem1), ?_⟩
          exact decide_eq_true hdni

/-- C3 witness: merging the two-task group [taskC3b, taskC3a] keeps id 1,
merges id 2 into it, and after reindexing the dependency 3 of a group
member survives on the consolidated task. -/
theorem mergeTasks_conservation_witness :
    (List.Sorted (· < ·) (mergedC3.id :: mergedC3.mergedFrom) ∧
      (mergedC3.id :: mergedC3.mergedFrom).Perm ([taskC3b, taskC3a].map Task.id)) ∧
    3 ∈ (((reindexDependencies [mergedC3]
        (mergedC3.mergedFrom.map (fun i => (i, mergedC3.id)))).headD mergedC3).dependencies) :=
  ⟨(mergeTasks_conservation [taskC3b, taskC3a] {} mergedC3 (by decide) (by decide)
      (by decide) rfl).1,
   (mergeTasks_conservation [taskC3b, taskC3a] {} mergedC3 (by decide) (by decide)
      (by decide) rfl).2
     ((reindexDependencies [mergedC3]
        (mergedC3.mergedFrom.map (fun i => (i, mergedC3.id)))).headD mergedC3)
     (by decide) 3 (by decide) (by decide) (by decide)⟩

/-- C4 counterexample: merging two tasks that share the single source
document d1 of type PRD stores the singleton unions as one-element
arrays, not as the scalar the claim requires. -/
theorem merge_sourceDocument_scalar_cex :
    (mergeTasks [taskC4a, taskC4b] {}).map (·.sourceDocumentId) =
      Except.ok (StrVal.array ["d1"]) ∧
    (mergeTasks [taskC4a, taskC4b] {}).map (·.sourceDocumentType) =
      Except.ok (StrVal.array ["PRD"]) ∧
    StrVal.array ["d1"] ≠ StrVal.scalar "d1" :=
  ⟨rfl, rfl, by decide⟩

/-- C4 amended: the surviving task's sourceDocumentId and
sourceDocumentType are the deduplicated unions of the group members'
values, stored as arrays in every case (also when the union is a
singleton); the scalar-if-singleton collapsing of the source applies to
the metadata fields, not to these two. -/
theorem mergeTasks_sourceDocuments (ts : List Task) (opts : MergeOptions) (m : Task)
    (h : mergeTasks ts opts = Except.ok m) :
    ∃ ids types,
      m.sourceDocumentId = StrVal.array ids ∧
      m.sourceDocumentType = StrVal.array types ∧
      ids.Nodup ∧ types.Nodup ∧
      (∀ s, s ∈ ids ↔ ∃ t ∈ ts, svContributes s t.sourceDocumentId) ∧
      (∀ s, s ∈ types ↔ ∃ t ∈ ts, svContributes s t.sourceDocumentType) := by
  unfold mergeTasks at h
  by_cases hlen2 : ts.length < 2
  · rw [if_pos hlen2] at h; exact Except.noConfusion h
  · rw [if_neg hlen2] at h
    cases hs : sortById ts with
    | nil => rw [hs] at h; exact Except.noConfusion h
    | cons p o =>
        rw [hs] at h
        obtain ⟨_, _, _, hsid, hsty⟩ := mergeTasksCore_fields p o opts m h
        have hs' : List.insertionSort (fun a b : Task => a.id ≤ b.id) ts = p :: o := hs
        have hperm : (p :: o).Perm ts :=
          hs' ▸ List.perm_insertionSort (fun a b : Task => a.id ≤ b.id) ts
        refine ⟨collectVals ((p :: o).map (·.sourceDocumentId)),
          collectVals ((p :: o).map (·.sourceDocumentType)),
          hsid, hsty, nodup_collectVals _, nodup_collectVals _, ?_, ?_⟩
        · intro s
          rw [mem_collectVals]
          constructor
          · rintro ⟨v, hv, hc⟩
            obtain ⟨t, ht, rfl⟩ := List.mem_map.mp hv
            exact ⟨t, hperm.mem_iff.mp ht, hc⟩
          · rintro ⟨t, ht, hc⟩
            exact ⟨t.sourceDocumentId,
              List.mem_map.mpr ⟨t, hperm.mem_iff.mpr ht, rfl⟩, hc⟩
        · intro s
          rw [mem_collectVals]
          constructor
          · rintro ⟨v, hv, hc⟩
            obtain ⟨t, ht, rfl⟩ := List.mem_map.mp hv
            exact ⟨t, hperm.mem_iff.mp ht, hc⟩
          · rintro ⟨t, ht, hc⟩
            exact ⟨t.sourceDocumentType,
              List.mem_map.mpr ⟨t, hperm.mem_iff.mpr ht, rfl⟩, hc⟩

/-- C4 witness: the amended property applied to the concrete merge of
taskC4a and taskC4b. -/
theorem mergeTasks_sourceDocuments_witness :
    ∃ ids types,
      mergedC4.sourceDocumentId = StrVal.array ids ∧
      mergedC4.sourceDocumentType = StrVal.array types ∧
      ids.Nodup ∧ types.Nodup ∧
      (∀ s, s ∈ ids ↔ ∃ t ∈ [taskC4a, taskC4b], svContributes s t.sourceDocumentId) ∧
      (∀ s, s ∈ types ↔ ∃ t ∈ [taskC4a, taskC4b], svContributes s t.sourceDocumentType) :=
  mergeTasks_sourceDocuments [taskC4a, taskC4b] {} mergedC4 rfl

/-- The regex classifier always tags its result with source regex. -/
theorem classifyWithRegex_source (rtest : String → String → Bool) (doc : String) :
    (classifyWithRegex rtest doc).source = "regex" := by
  unfold classifyWithRegex
  split <;> rfl

/-- C8: when the regex confidence reaches the threshold, classifyDocument
returns the regex result (tagged source regex) and the LLM collaborator
is never invoked, for every regex engine, every collaborator and either
useLLMFallback setting. -/
theorem classifyDocument_regex_short_circuit (rtest : String → String → Bool)
    (llm : String → ClassResult) (doc : String) (useLLMFallback : Bool)
    (threshold : ℚ) (hne : (jsTrim doc).length ≠ 0)
    (hconf : (classifyWithRegex rtest (jsTrim doc)).confidence ≥ threshold) :
    classifyDocument rtest llm doc useLLMFallback threshold =
      (classifyWithRegex rtest (jsTrim doc), false) ∧
    (classifyWithRegex rtest (jsTrim doc)).source = "regex" := by
  have hdoc : ¬(doc = "") := by
    intro h
    rw [h] at hne
    exact hne (by decide)
  refine ⟨?_, classifyWithRegex_source rtest (jsTrim doc)⟩
  simp only [classifyDocument]
  rw [if_neg hdoc, if_neg hne, if_pos hconf]

/-- C8 witness: the theorem applied at the all-matching engine, the
failing collaborator and a PRD-keyword document, with the threshold
instantiated at the computed confidence itself so that the
reaches-threshold hypothesis is discharged by reflexivity of the order. -/
theorem classifyDocument_regex_short_circuit_witness :
    classifyDocument rtestTrue llmNone docC8 true
        (classifyWithRegex rtestTrue (jsTrim docC8)).confidence =
      (classifyWithRegex rtestTrue (jsTrim docC8), false) ∧
    (classifyWithRegex rtestTrue (jsTrim docC8)).source = "regex" :=
  classifyDocument_regex_short_circuit rtestTrue llmNone docC8 true
    (classifyWithRegex rtestTrue (jsTrim docC8)).confidence
    (by decide) (le_refl _)

theorem foldl_best_fst_mem (l : List (String × ℚ)) (b : String × ℚ) :
    (l.foldl (fun b e => if e.2 > b.2 then e else b) b).1 = b.1 ∨
    (l.foldl (fun b e => if e.2 > b.2 then e else b) b).1 ∈ l.map Prod.fst := by
  induction l generalizing b with
  | nil => exact Or.inl rfl
  | cons e l ih =>
      rw [List.foldl_cons]
      rcases ih (if e.2 > b.2 then e else b) with h | h
      · by_cases hc : e.2 > b.2
        · rw [if_pos hc] at h
          refine Or.inr ?_
          rw [if_pos hc, h]
          exact List.mem_cons_self _ _
        · rw [if_neg hc] at h
          rw [if_neg hc]
          exact Or.inl h
      · exact Or.inr (List.mem_cons_of_mem _ h)

/-- The best-scoring type is OTHER or one of the scored registry types. -/
theorem classifyWithRegex_type_cases (rtest : String → String → Bool) (doc : String) :
    (classifyWithRegex rtest doc).type = "OTHER" ∨
    (classifyWithRegex rtest doc).type ∈ (regexScores rtest doc).map Prod.fst := by
  unfold classifyWithRegex
  split
  · exact Or.inl rfl
  · exact foldl_best_fst_mem (regexScores rtest doc) ("OTHER", 0)

/-- C9: the regex classifier can only answer OTHER, PRD, UX_SPEC, SDD or
TECH_SPEC - never INFRA_SPEC or DESIGN_SYSTEM - although classification
patterns for those two types exist, because scoring is restricted to the
adapter-registry types, which do not include them. -/
theorem classifyWithRegex_type_range (rtest : String → String → Bool) (doc : String) :
    (classifyWithRegex rtest doc).type ∈ ["OTHER", "PRD", "UX_SPEC", "SDD", "TECH_SPEC"] ∧
    (classifyWithRegex rtest doc).type ≠ "INFRA_SPEC" ∧
    (classifyWithRegex rtest doc).type ≠ "DESIGN_SYSTEM" ∧
    (lookupPattern "INFRA_SPEC").isSome = true ∧
    (lookupPattern "DESIGN_SYSTEM").isSome = true ∧
    "INFRA_SPEC" ∉ getSupportedDocumentTypes ∧
    "DESIGN_SYSTEM" ∉ getSupportedDocumentTypes := by
  have hmem : (classifyWithRegex rtest doc).type ∈
      ["OTHER", "PRD", "UX_SPEC", "SDD", "TECH_SPEC"] := by
    have hcases := classifyWithRegex_type_cases rtest doc
    have hkeys : (regexScores rtest doc).map Prod.fst =
        ["PRD", "UX_SPEC", "SDD", "TECH_SPEC"] := rfl
    rw [hkeys] at hcases
    rcases hcases with h | h
    · rw [h]
      exact List.mem_cons_self _ _
    · exact List.mem_cons_of_mem _ h
  refine ⟨hmem, ?_, ?_, by decide, by decide, by decide, by decide⟩
  · intro heq
    rw [heq] at hmem
    exact absurd hmem (by decide)
  · intro heq
    rw [heq] at hmem
    exact absurd hmem (by decide)

/-- C1 (code bug): on the cyclic configuration of the spec example both
sources have a truthy parentId, so neither is a root; the visit never
reaches the cycle, the circular-dependency throw is unreachable, and the
sort returns an empty order with no error - the run then processes zero
documents and completes instead of aborting. The repository's own
documented jest test expects the run to reject with a
circular-dependency error on exactly this input. -/
theorem cyclic_sources_not_detected :
    hierarchyProcessingOrder
      [{ id := "docA", parentId := some "docB" },
       { id := "docB", parentId := some "docA" }] = Except.ok [] ∧
    sortDocumentSources
      [{ id := "docA", parentId := some "docB" },
       { id := "docB", parentId := some "docA" }] = Except.ok [] :=
  ⟨rfl, rfl⟩

/-- C2 (code bug): a source whose parentId references an unknown id is
neither a root nor anyone's child, so the visit never reaches it: the
sort returns only doc1 and doc2 is left out of the processing order (the
generator is never invoked for it). The run does not abort, but the
repository's own documented jest test expects the parser to be called for
both sources. -/
theorem dangling_parent_source_skipped :
    hierarchyProcessingOrder
      [{ id := "doc1" }, { id := "doc2", parentId := some "nonExistentParent" }] =
      Except.ok ["doc1"] ∧
    sortDocumentSources
      [{ id := "doc1" }, { id := "doc2", parentId := some "nonExistentParent" }] =
      Except.ok [{ id := "doc1" }] := by
  constructor
  · rfl
  · rfl

/-- Sanity check of the sort on the spec's well-formed example: the
parent is processed before the child. -/
theorem sort_parent_before_child :
    hierarchyProcessingOrder
      [{ id := "child", parentId := some "root" }, { id := "root" }] =
      Except.ok ["root", "child"] := rfl


/-! ## C10: merge pipeline invariants -/

theorem bool_eq_of_iff {a b : Bool} (h : a = true ↔ b = true) : a = b := by
  cases a <;> cases b <;> simp_all

theorem mapHasKey_iff_mem (m : List (Nat × Nat)) (k : Nat) :
    mapHasKey m k = true ↔ k ∈ m.map Prod.fst := by
  constructor
  · intro h
    rcases List.any_eq_true.mp h with ⟨e, he, hk⟩
    exact List.mem_map.mpr ⟨e, he, by simpa using hk⟩
  · intro h
    rcases List.mem_map.mp h with ⟨e, he, hk⟩
    exact List.any_eq_true.mpr ⟨e, he, by simpa using hk⟩

theorem mapSet_keys_of_hasKey (m : List (Nat × Nat)) (k v : Nat)
    (h : mapHasKey m k = true) :
    (mapSet m k v).map Prod.fst = m.map Prod.fst := by
  unfold mapSet
  rw [if_pos h]
  clear h
  induction m with
  | nil => rfl
  | cons e es ih =>
      by_cases hc : e.1 = k
      · simp [List.map_cons, hc, ih]
      · simp [List.map_cons, hc, ih]

theorem mapSet_keys_of_not_hasKey (m : List (Nat × Nat)) (k v : Nat)
    (h : mapHasKey m k = false) :
    (mapSet m k v).map Prod.fst = m.map Prod.fst ++ [k] := by
  unfold mapSet
  rw [if_neg (by simp [h])]
  simp

theorem hasKey_mapSet_iff (m : List (Nat × Nat)) (k v j : Nat) :
    mapHasKey (mapSet m k v) j = true ↔ (mapHasKey m j = true ∨ j = k) := by
  by_cases h : mapHasKey m k = true
  · rw [mapHasKey_iff_mem, mapSet_keys_of_hasKey m k v h, ← mapHasKey_iff_mem]
    constructor
    · exact Or.inl
    · rintro (hj | rfl)
      · exact hj
      · exact h
  · have h' : mapHasKey m k = false := by
      cases hb : mapHasKey m k
      · rfl
      · exact absurd hb h
    rw [mapHasKey_iff_mem, mapSet_keys_of_not_hasKey m k v h', List.mem_append,
      List.mem_singleton, ← mapHasKey_iff_mem]

theorem hasKey_mapSet (m : List (Nat × Nat)) (k v j : Nat) :
    mapHasKey (mapSet m k v) j = (mapHasKey m j || j == k) := by
  apply bool_eq_of_iff
  rw [hasKey_mapSet_iff]
  simp

theorem nodup_mapSet_keys (m : List (Nat × Nat)) (k v : Nat)
    (h : (m.map Prod.fst).Nodup) : ((mapSet m k v).map Prod.fst).Nodup := by
  by_cases hk : mapHasKey m k = true
  · rw [mapSet_keys_of_hasKey m k v hk]
    exact h
  · have hk' : mapHasKey m k = false := by
      cases hb : mapHasKey m k
      · rfl
      · exact absurd hb hk
    rw [mapSet_keys_of_not_hasKey m k v hk']
    have hnotmem : k ∉ m.map Prod.fst := by
      rw [← mapHasKey_iff_mem]
      simp [hk']
    simp [List.nodup_append, hnotmem, h]

theorem hasKey_foldl_mapSet (rids : List Nat) (m : List (Nat × Nat)) (v j : Nat) :
    mapHasKey (rids.foldl (fun acc r => mapSet acc r v) m) j
      = (mapHasKey m j || rids.contains j) := by
  induction rids generalizing m with
  | nil => simp
  | cons r rs ih =>
      simp only [List.foldl_cons, List.contains_cons]
      rw [ih, hasKey_mapSet]
      cases mapHasKey m j <;> cases hj : (j == r) <;> simp

theorem nodup_foldl_mapSet_keys (rids : List Nat) (m : List (Nat × Nat)) (v : Nat)
    (h : (m.map Prod.fst).Nodup) :
    ((rids.foldl (fun acc r => mapSet acc r v) m).map Prod.fst).Nodup := by
  induction rids generalizing m with
  | nil => exact h
  | cons r rs ih => exact ih _ (nodup_mapSet_keys m r v h)

theorem replaceById_map_id (l : List Task) (m : Task) :
    (replaceById l m).map Task.id = l.map Task.id := by
  induction l with
  | nil => rfl
  | cons t ts ih =>
      by_cases h : t.id = m.id
      · simp [replaceById, h]
      · simp [replaceById, h, ih]

theorem map_id_filter_not_contains (rids : List Nat) (l : List Task) :
    (l.filter (fun t => !rids.contains t.id)).map Task.id
      = (l.map Task.id).filter (fun i => !rids.contains i) := by
  induction l with
  | nil => rfl
  | cons t ts ih =>
      simp only [List.map_cons, List.filter_cons]
      cases h : rids.contains t.id
      · simp only [h, Bool.not_false]
        simpa using ih
      · simp only [h, Bool.not_true]
        simpa using ih

theorem map_id_filter_ne (b : Nat) (l : List Task) :
    (l.filter (fun t => !(t.id = b))).map Task.id
      = (l.map Task.id).filter (fun i => !(i = b)) := by
  induction l with
  | nil => rfl
  | cons t ts ih =>
      by_cases h : t.id = b
      · simp [List.filter_cons, h, ih]
      · simp [List.filter_cons, h, ih]

theorem hashMergeState_inv (ids : List Nat) (st : MTState) (rids : List Nat)
    (mt : Task) (hash : String) (hinv : MTInv ids st)
    (hsub : ∀ r ∈ rids, r ∈ ids) :
    MTInv ids (hashMergeState st rids mt hash) := by
  obtain ⟨h1, h2, h3⟩ := hinv
  refine ⟨?_, ?_, ?_⟩
  · show (replaceById (st.processedTasks.filter fun t => !rids.contains t.id) mt).map
        Task.id
      = ids.filter fun i =>
          !mapHasKey (rids.foldl (fun m rid => mapSet m rid mt.id) st.mergedIdMap) i
    rw [replaceById_map_id, map_id_filter_not_contains, h1, List.filter_filter]
    apply List.filter_congr
    intro i _
    rw [hasKey_foldl_mapSet]
    cases mapHasKey st.mergedIdMap i <;> cases rids.contains i <;> rfl
  · show ∀ k,
      mapHasKey (rids.foldl (fun m rid => mapSet m rid mt.id) st.mergedIdMap) k = true →
      k ∈ ids
    intro k hk
    rw [hasKey_foldl_mapSet] at hk
    rcases Bool.or_eq_true_iff.mp hk with ha | hb
    · exact h2 k ha
    · exact hsub k (List.mem_of_elem_eq_true hb)
  · show ((rids.foldl (fun m rid => mapSet m rid mt.id) st.mergedIdMap).map
      Prod.fst).Nodup
    exact nodup_foldl_mapSet_keys rids st.mergedIdMap mt.id h3

theorem semMergeState_inv (ids : List Nat) (st : MTState) (b mt : Task)
    (strat : String) (simRec : Option ℚ) (counts : StrategyCounts)
    (hinv : MTInv ids st) (hb : b.id ∈ ids) :
    MTInv ids (semMergeState st b mt strat simRec counts) := by
  obtain ⟨h1, h2, h3⟩ := hinv
  refine ⟨?_, ?_, ?_⟩
  · show (replaceById (st.processedTasks.filter fun t => !(t.id = b.id)) mt).map Task.id
      = ids.filter fun i => !mapHasKey (mapSet st.mergedIdMap b.id mt.id) i
    rw [replaceById_map_id, map_id_filter_ne, h1, List.filter_filter]
    apply List.filter_congr
    intro i _
    rw [hasKey_mapSet]
    cases h : mapHasKey st.mergedIdMap i <;> by_cases hib : i = b.id <;> simp [hib]
  · show ∀ k, mapHasKey (mapSet st.mergedIdMap b.id mt.id) k = true → k ∈ ids
    intro k hk
    rcases (hasKey_mapSet_iff st.mergedIdMap b.id mt.id k).mp hk with ha | rfl
    · exact h2 k ha
    · exact hb
  · show ((mapSet st.mergedIdMap b.id mt.id).map Prod.fst).Nodup
    exact nodup_mapSet_keys st.mergedIdMap b.id mt.id h3

theorem spliceOut_subset (rem : List Task) (b t : Task) (h : t ∈ spliceOut rem b) :
    t ∈ rem := by
  unfold spliceOut at h
  split at h
  · exact (List.eraseIdx_sublist rem _).subset h
  · exact h

theorem mem_groupInsert (acc : List (String × List Task)) (key : String)
    (t : Task) (e : String × List Task) (he : e ∈ groupInsert acc key t)
    (u : Task) (hu : u ∈ e.2) :
    (∃ e2 ∈ acc, u ∈ e2.2) ∨ u = t := by
  unfold groupInsert at he
  split at he
  · rcases List.mem_map.mp he with ⟨e0, he0, heq⟩
    by_cases hk : e0.1 = key
    · rw [if_pos hk] at heq
      subst heq
      rcases List.mem_append.mp hu with h1 | h1
      · exact Or.inl ⟨e0, he0, h1⟩
      · exact Or.inr (List.mem_singleton.mp h1)
    · rw [if_neg hk] at heq
      subst heq
      exact Or.inl ⟨e0, he0, hu⟩
  · rcases List.mem_append.mp he with h1 | h1
    · exact Or.inl ⟨e, h1, hu⟩
    · rw [List.mem_singleton] at h1
      subst h1
      exact Or.inr (List.mem_singleton.mp hu)

theorem mem_groupFold (f : Task → Except String String) (ts : List Task) :
    ∀ (acc groups : List (String × List Task)),
      groupFold f ts acc = Except.ok groups →
      ∀ e ∈ groups, ∀ u ∈ e.2, (∃ e2 ∈ acc, u ∈ e2.2) ∨ u ∈ ts := by
  induction ts with
  | nil =>
      intro acc groups h e he u hu
      rw [groupFold] at h
      cases h
      exact Or.inl ⟨e, he, hu⟩
  | cons t ts ih =>
      intro acc groups h e he u hu
      rw [groupFold] at h
      split at h
      · simp at h
      · rename_i key hf
        rcases ih _ _ h e he u hu with ⟨e2, he2, hu2⟩ | hmem
        · rcases mem_groupInsert acc key t e2 he2 u hu2 with hacc | rfl
          · exact Or.inl hacc
          · exact Or.inr (List.mem_cons_self _ _)
        · exact Or.inr (List.mem_cons_of_mem _ hmem)

theorem identifyDuplicateGroups_sub (tasks : List Task) (gs : List (List Task))
    (h : identifyDuplicateGroups tasks = Except.ok gs) :
    ∀ g ∈ gs, ∀ u ∈ g, u ∈ tasks := by
  unfold identifyDuplicateGroups at h
  split at h
  · cases h
    intro g hg
    exact absurd hg (List.not_mem_nil g)
  · split at h
    · simp at h
    · rename_i groups hgf
      cases h
      intro g hg u hu
      have hg2 := List.mem_of_mem_filter hg
      rcases List.mem_map.mp hg2 with ⟨e, he, rfl⟩
      rcases mem_groupFold createGroupingKey tasks [] groups hgf e he u hu with
        ⟨e2, he2, _⟩ | hm
      · exact absurd he2 (List.not_mem_nil e2)
      · exact hm

theorem applyHashGroup_inv (opts : MergeOptions) (ids : List Nat) (st st' : MTState)
    (entry : String × List Task) (hsub : ∀ u ∈ entry.2, u.id ∈ ids)
    (hinv : MTInv ids st)
    (h : applyHashGroup opts st entry = Except.ok st') : MTInv ids st' := by
  unfold applyHashGroup at h
  split at h
  · split at h
    · simp at h
    · rename_i mergedTask hmerge
      cases h
      apply hashMergeState_inv ids st _ mergedTask entry.1 hinv
      intro r hr
      rcases List.mem_map.mp hr with ⟨u, hu, rfl⟩
      exact hsub u (List.mem_of_mem_tail hu)
  · cases h
    exact hinv

theorem applyHashGroups_inv (opts : MergeOptions) (ids : List Nat)
    (es : List (String × List Task)) :
    ∀ (st st' : MTState),
      (∀ e ∈ es, ∀ u ∈ e.2, u.id ∈ ids) → MTInv ids st →
      applyHashGroups opts es st = Except.ok st' → MTInv ids st' := by
  induction es with
  | nil =>
      intro st st' _ hinv h
      rw [applyHashGroups] at h
      cases h
      exact hinv
  | cons e es ih =>
      intro st st' hsub hinv h
      rw [applyHashGroups] at h
      split at h
      · simp at h
      · rename_i st2 h2
        exact ih _ _ (fun e2 he2 => hsub e2 (List.mem_cons_of_mem _ he2))
          (applyHashGroup_inv opts ids st st2 e (hsub e (List.mem_cons_self _ _))
            hinv h2) h

set_option maxHeartbeats 1000000 in
theorem semInner_inv (llm : Task → Task → LLMDecision) (opts : MergeOptions)
    (ids : List Nat) (fuel : Nat) :
    ∀ (i j : Nat) (rem : List Task) (st : MTState) (rem' : List Task) (st' : MTState),
      (∀ t ∈ rem, t.id ∈ ids) → MTInv ids st →
      semInner llm opts fuel i j rem st = Except.ok (rem', st') →
      (∀ t ∈ rem', t.id ∈ ids) ∧ MTInv ids st' := by
  induction fuel with
  | zero =>
      intro i j rem st rem' st' _ _ h
      rw [semInner] at h
      simp at h
  | succ fuel ih =>
      intro i j rem st rem' st' hrem hinv h
      rw [semInner] at h
      split at h
      · split at h
        · rename_i taskA taskB hA hB
          split at h
          · exact ih _ _ _ _ _ _ hrem hinv h
          · split at h
            rename_i should strat simRec counts2 hdec
            split at h
            · split at h
              · simp at h
              · rename_i mergedTask hmerge
                refine ih _ _ _ _ _ _ ?_ ?_ h
                · intro t ht
                  exact hrem t (spliceOut_subset rem taskB t ht)
                · exact semMergeState_inv ids st taskB mergedTask _ _ _ hinv
                    (hrem taskB (List.get?_mem hB))
            · refine ih _ _ _ _ _ _ hrem ?_ h
              exact hinv
        · simp at h
      · cases h
        exact ⟨hrem, hinv⟩

theorem semOuter_inv (llm : Task → Task → LLMDecision) (opts : MergeOptions)
    (ids : List Nat) (fuel : Nat) :
    ∀ (i : Nat) (rem : List Task) (st : MTState) (rem' : List Task) (st' : MTState),
      (∀ t ∈ rem, t.id ∈ ids) → MTInv ids st →
      semOuter llm opts fuel i rem st = Except.ok (rem', st') →
      MTInv ids st' := by
  induction fuel with
  | zero =>
      intro i rem st rem' st' _ _ h
      rw [semOuter] at h
      simp at h
  | succ fuel ih =>
      intro i rem st rem' st' hrem hinv h
      rw [semOuter] at h
      split at h
      · split at h
        · simp at h
        · rename_i rem2 st2 hin
          obtain ⟨hrem2, hinv2⟩ := semInner_inv llm opts ids _ _ _ _ _ _ _ hrem hinv hin
          exact ih _ _ _ _ _ hrem2 hinv2 h
      · cases h
        exact hinv

theorem processGroup_inv (sha : String → String) (llm : Task → Task → LLMDecision)
    (opts : MergeOptions) (ids : List Nat) (group : List Task) (st st' : MTState)
    (hg : ∀ t ∈ group, t.id ∈ ids) (hinv : MTInv ids st)
    (h : processGroup sha llm opts group st = Except.ok st') : MTInv ids st' := by
  unfold processGroup at h
  split at h
  · simp at h
  · rename_i hashGroups hgf
    split at h
    · simp at h
    · rename_i st2 hap
      have hinv2 : MTInv ids st2 := by
        apply applyHashGroups_inv opts ids hashGroups st st2 ?_ hinv hap
        intro e he u hu
        rcases mem_groupFold (generateTaskHash sha) group [] hashGroups hgf e he u hu
          with ⟨e2, he2, _⟩ | hm
        · exact absurd he2 (List.not_mem_nil e2)
        · exact hg u hm
      split at h
      · split at h
        · simp at h
        · rename_i rem2 st3 hso
          cases h
          exact semOuter_inv llm opts ids _ _ _ _ _ _
            (fun t ht => hg t (List.mem_of_mem_filter ht)) hinv2 hso
      · cases h
        exact hinv2

theorem processGroups_inv (sha : String → String) (llm : Task → Task → LLMDecision)
    (opts : MergeOptions) (ids : List Nat) (gs : List (List Task)) :
    ∀ (st st' : MTState),
      (∀ g ∈ gs, ∀ t ∈ g, t.id ∈ ids) → MTInv ids st →
      processGroups sha llm opts gs st = Except.ok st' → MTInv ids st' := by
  induction gs with
  | nil =>
      intro st st' _ hinv h
      rw [processGroups] at h
      cases h
      exact hinv
  | cons g gs ih =>
      intro st st' hsub hinv h
      rw [processGroups] at h
      split at h
      · simp at h
      · rename_i st2 h2
        exact ih _ _ (fun g2 hg2 => hsub g2 (List.mem_cons_of_mem _ hg2))
          (processGroup_inv sha llm opts ids g st st2
            (hsub g (List.mem_cons_self _ _)) hinv h2) h

theorem reindex_map_id (ts : List Task) (m : List (Nat × Nat)) :
    (reindexDependencies ts m).map Task.id = ts.map Task.id := by
  unfold reindexDependencies
  split
  · rfl
  · rw [List.map_map]
    apply List.map_congr_left
    intro t _
    simp only [Function.comp_apply]
    split
    · rfl
    · rfl

theorem filter_hasKey_length (ids : List Nat) (m : List (Nat × Nat))
    (hnd : ids.Nodup) (hkeys : (m.map Prod.fst).Nodup)
    (hsub : ∀ k, mapHasKey m k = true → k ∈ ids) :
    (ids.filter (fun i => mapHasKey m i)).length = (m.map Prod.fst).length := by
  have hperm : (ids.filter (fun i => mapHasKey m i)).Perm (m.map Prod.fst) := by
    apply (List.perm_ext_iff_of_nodup (hnd.filter _) hkeys).mpr
    intro a
    constructor
    · intro ha
      exact (mapHasKey_iff_mem m a).mp (List.of_mem_filter ha)
    · intro ha
      have hk : mapHasKey m a = true := (mapHasKey_iff_mem m a).mpr ha
      exact List.mem_filter.mpr ⟨hsub a hk, hk⟩
  exact hperm.length_eq


theorem length_filter_hasKey_split (m : List (Nat × Nat)) (l : List Nat) :
    (l.filter (fun i => !mapHasKey m i)).length
      + (l.filter (fun i => mapHasKey m i)).length = l.length := by
  induction l with
  | nil => rfl
  | cons x xs ih =>
      simp only [List.filter_cons]
      cases hp : mapHasKey m x <;> simp [hp] <;> omega

/-- C10: for every SHA256 oracle, merge-arbitration collaborator, option
record and input task list with pairwise-distinct ids, a successful
mergeTasksInTag run returns a task list with pairwise-distinct ids, none
of the surviving ids is a key of the merged-id map (a merged-away task
never survives), the merged-id map has pairwise-distinct keys, and the
report's finalCount plus the number of distinct merged-away ids equals
the report's originalCount, which is the input length. -/
theorem mergeTasksInTag_invariants (sha : String → String)
    (llm : Task → Task → LLMDecision) (tasks : List Task) (opts : MergeOptions)
    (res : MergeRunResult) (hnd : (tasks.map Task.id).Nodup)
    (h : mergeTasksInTag sha llm tasks opts = Except.ok res) :
    (res.mergedTasks.map Task.id).Nodup ∧
    (∀ t ∈ res.mergedTasks, mapHasKey res.mergedIdMap t.id = false) ∧
    (res.mergedIdMap.map Prod.fst).Nodup ∧
    res.mergeReport.finalCount + (res.mergedIdMap.map Prod.fst).length
      = res.mergeReport.originalCount ∧
    res.mergeReport.originalCount = tasks.length := by
  unfold mergeTasksInTag at h
  split at h
  · simp at h
  · rename_i duplicateGroups hdg
    split at h
    · simp at h
    · rename_i st hpg
      have hinv : MTInv (tasks.map Task.id) st := by
        apply processGroups_inv sha llm opts _ duplicateGroups _ _ ?_ ?_ hpg
        · intro g hg t ht
          exact List.mem_map_of_mem Task.id
            (identifyDuplicateGroups_sub tasks duplicateGroups hdg g hg t ht)
        · refine ⟨?_, ?_, ?_⟩
          · simp [mapHasKey]
          · intro k hk
            simp [mapHasKey] at hk
          · simp
      obtain ⟨h1, h2, h3⟩ := hinv
      replace h : Except.ok
          (MergeRunResult.mk (reindexDependencies st.processedTasks st.mergedIdMap)
            (MergeReport.mk tasks.length st.mergedGroups
              (reindexDependencies st.processedTasks st.mergedIdMap).length st.counts)
            st.mergedIdMap) = Except.ok res := h
      cases h
      refine ⟨?_, ?_, h3, ?_, rfl⟩
      · show ((reindexDependencies st.processedTasks st.mergedIdMap).map Task.id).Nodup
        rw [reindex_map_id, h1]
        exact hnd.filter _
      · show ∀ t ∈ reindexDependencies st.processedTasks st.mergedIdMap,
          mapHasKey st.mergedIdMap t.id = false
        intro t ht
        have hmem : t.id ∈ (reindexDependencies st.processedTasks st.mergedIdMap).map
            Task.id := List.mem_map_of_mem Task.id ht
        rw [reindex_map_id, h1] at hmem
        have hflt := List.of_mem_filter hmem
        simpa using hflt
      · show (reindexDependencies st.processedTasks st.mergedIdMap).length
          + (st.mergedIdMap.map Prod.fst).length = tasks.length
        have hlen : (reindexDependencies st.processedTasks st.mergedIdMap).length
            = ((tasks.map Task.id).filter
                (fun i => !mapHasKey st.mergedIdMap i)).length := by
          calc (reindexDependencies st.processedTasks st.mergedIdMap).length
              = ((reindexDependencies st.processedTasks st.mergedIdMap).map
                  Task.id).length := (List.length_map _ _).symm
            _ = ((tasks.map Task.id).filter
                  (fun i => !mapHasKey st.mergedIdMap i)).length := by
                rw [reindex_map_id, h1]
        have hkey : ((tasks.map Task.id).filter
              (fun i => mapHasKey st.mergedIdMap i)).length
            = (st.mergedIdMap.map Prod.fst).length :=
          filter_hasKey_length (tasks.map Task.id) st.mergedIdMap hnd h3 h2
        have hsplit := length_filter_hasKey_split st.mergedIdMap (tasks.map Task.id)
        have hml : (tasks.map Task.id).length = tasks.length := List.length_map _ _
        omega

/-- Witness for C10: the singleton batch [soloW] has pairwise-distinct
ids, the run succeeds with the task returned unchanged, and all five
invariant components hold on the concrete result soloRun. -/
theorem mergeTasksInTag_invariants_witness :
    (soloRun.mergedTasks.map Task.id).Nodup ∧
    (∀ t ∈ soloRun.mergedTasks, mapHasKey soloRun.mergedIdMap t.id = false) ∧
    (soloRun.mergedIdMap.map Prod.fst).Nodup ∧
    soloRun.mergeReport.finalCount + (soloRun.mergedIdMap.map Prod.fst).length
      = soloRun.mergeReport.originalCount ∧
    soloRun.mergeReport.originalCount = [soloW].length :=
  mergeTasksInTag_invariants (fun s => s) llmNoMerge [soloW] {} soloRun
    (by decide) rfl

end TaskMaster
